import Mathlib

/-!
Verification development for the generic-extractor conversation engine.

The definitions below are a shallow embedding of the TypeScript sources:
  * `src/web/src/hooks/use-chat.ts`        (client-side Stream Reconstructor)
  * `src/web/src/app/api/chat/route.ts`    (Conversation Orchestrator / POST)
  * `src/web/src/lib/tools/executor.ts`    (Tool Registry dispatch)

JavaScript runtime values that flow through these functions are modelled by
the `Json` inductive (JSON numbers are modelled as integers; none of the
verified behaviour depends on fractional numbers).  `JSON.parse` is modelled
by `jsonParse`, `JSON.stringify(v)` by `stringifyCompact`, and
`JSON.stringify(v, null, 2)` by `stringify2`.  A missing object property
(`undefined`) is modelled by `Option.none`.
-/

/-- A JSON value as produced by `JSON.parse`.  Numbers are modelled as
integers (the payloads exercised by the engine contain only integral
numbers). -/
inductive Json where
  | null : Json
  | bool (b : Bool) : Json
  | num (n : Int) : Json
  | str (s : String) : Json
  | arr (elems : List Json) : Json
  | obj (fields : List (String × Json)) : Json

/-- JavaScript truthiness of a possibly-undefined value (`undefined`, `null`,
`false`, `0` and `""` are falsy; objects and arrays are truthy). -/
def jsFalsy : Option Json → Bool
  | Option.none => true
  | Option.some Json.null => true
  | Option.some (Json.bool b) => !b
  | Option.some (Json.num n) => n == 0
  | Option.some (Json.str s) => s == ""
  | Option.some (Json.arr _) => false
  | Option.some (Json.obj _) => false

/-- JavaScript truthiness. -/
def jsTruthy (v : Option Json) : Bool := !jsFalsy v

/-- JavaScript strict equality `===` on two runtime values.  Primitives are
compared by value; two objects or arrays obtained from separate `JSON.parse`
calls are never reference-equal, so the object cases are `false`. -/
def jsStrictEq : Json → Json → Bool
  | Json.null, Json.null => true
  | Json.bool a, Json.bool b => a == b
  | Json.num a, Json.num b => a == b
  | Json.str a, Json.str b => a == b
  | _, _ => false

/-- Strict equality lifted to possibly-undefined values
(`undefined === undefined` is `true`). -/
def jsStrictEqO : Option Json → Option Json → Bool
  | Option.none, Option.none => true
  | Option.some a, Option.some b => jsStrictEq a b
  | _, _ => false

/-- Property access `j.k` on a parsed JSON value: a lookup on objects,
`undefined` on everything else. -/
def jsField (j : Json) (k : String) : Option Json :=
  match j with
  | Json.obj fields =>
    match fields.find? (fun p => p.1 == k) with
    | Option.some p => Option.some p.2
    | Option.none => Option.none
  | _ => Option.none

mutual

/-- `String(x)` / template-literal conversion of a runtime value.  Arrays
convert via `Array.prototype.toString` (elements joined by commas, `null`
elements becoming empty); plain objects convert to `"[object Object]"`. -/
def jsToStringV : Json → String
  | Json.null => "null"
  | Json.bool b => if b then "true" else "false"
  | Json.num n => toString n
  | Json.str s => s
  | Json.arr elems => String.intercalate "," (jsToStringList elems)
  | Json.obj _ => "[object Object]"

/-- Elementwise conversion used by `Array.prototype.toString`
(`null` elements render as the empty string). -/
def jsToStringList : List Json → List String
  | [] => []
  | Json.null :: rest => "" :: jsToStringList rest
  | v :: rest => jsToStringV v :: jsToStringList rest

end

/-- `String(x)` on a possibly-undefined value. -/
def jsToString : Option Json → String
  | Option.none => "undefined"
  | Option.some v => jsToStringV v

/-- Two-digit uppercase hexadecimal rendering of a byte-sized number. -/
def hex2 (n : Nat) : String :=
  let dig := fun (d : Nat) =>
    if d < 10 then String.singleton (Char.ofNat (48 + d))
    else String.singleton (Char.ofNat (55 + d))
  dig (n / 16 % 16) ++ dig (n % 16)

/-- Escaping of one character inside a JSON string literal, as performed by
`JSON.stringify`. -/
def jsonEscapeChar (c : Char) : String :=
  if c = '"' then "\\\""
  else if c = '\\' then "\\\\"
  else if c = '\n' then "\\n"
  else if c = '\r' then "\\r"
  else if c = '\t' then "\\t"
  else if c = Char.ofNat 8 then "\\b"
  else if c = Char.ofNat 12 then "\\f"
  else if c.toNat < 32 then "\\u00" ++ hex2 c.toNat
  else String.singleton c

/-- Escaped, quoted JSON string literal. -/
def jsonQuote (s : String) : String :=
  "\"" ++ String.join (s.data.map jsonEscapeChar) ++ "\""

mutual

/-- `JSON.stringify(v)` (no indentation). -/
def stringifyCompact : Json → String
  | Json.null => "null"
  | Json.bool b => if b then "true" else "false"
  | Json.num n => toString n
  | Json.str s => jsonQuote s
  | Json.arr elems => "[" ++ String.intercalate "," (stringifyCompactList elems) ++ "]"
  | Json.obj fields =>
    "\x7b" ++ String.intercalate "," (stringifyCompactFields fields) ++ "\x7d"

/-- Compact rendering of array elements. -/
def stringifyCompactList : List Json → List String
  | [] => []
  | v :: rest => stringifyCompact v :: stringifyCompactList rest

/-- Compact rendering of object fields. -/
def stringifyCompactFields : List (String × Json) → List String
  | [] => []
  | (k, v) :: rest => (jsonQuote k ++ ":" ++ stringifyCompact v) :: stringifyCompactFields rest

end

/-- Indentation prefix used by `JSON.stringify(v, null, 2)` at depth `d`. -/
def indentStr (d : Nat) : String := String.mk (List.replicate (2 * d) ' ')

mutual

/-- `JSON.stringify(v, null, 2)` at nesting depth `d`. -/
def stringify2At : Nat → Json → String
  | _, Json.null => "null"
  | _, Json.bool b => if b then "true" else "false"
  | _, Json.num n => toString n
  | _, Json.str s => jsonQuote s
  | _, Json.arr [] => "[]"
  | d, Json.arr (v :: rest) =>
    "[\n" ++ String.intercalate ",\n" (stringify2List (d + 1) (v :: rest)) ++
      "\n" ++ indentStr d ++ "]"
  | _, Json.obj [] => "\x7b\x7d"
  | d, Json.obj (f :: rest) =>
    "\x7b\n" ++ String.intercalate ",\n" (stringify2Fields (d + 1) (f :: rest)) ++
      "\n" ++ indentStr d ++ "\x7d"

/-- Indented rendering of array elements. -/
def stringify2List : Nat → List Json → List String
  | _, [] => []
  | d, v :: rest => (indentStr d ++ stringify2At d v) :: stringify2List d rest

/-- Indented rendering of object fields. -/
def stringify2Fields : Nat → List (String × Json) → List String
  | _, [] => []
  | d, (k, v) :: rest =>
    (indentStr d ++ jsonQuote k ++ ": " ++ stringify2At d v) :: stringify2Fields d rest

end

/-- `JSON.stringify(result, null, 2)` as used by the tool executor. -/
def stringify2 (v : Json) : String := stringify2At 0 v

/-- Whitespace skipping for the JSON parser. -/
def jsonSkipWs : List Char → List Char
  | c :: rest =>
    if c = ' ' ∨ c = '\n' ∨ c = '\t' ∨ c = '\r' then jsonSkipWs rest else c :: rest
  | [] => []

/-- Value of one hexadecimal digit. -/
def hexDigitVal (c : Char) : Option Nat :=
  if '0' ≤ c ∧ c ≤ '9' then Option.some (c.toNat - 48)
  else if 'a' ≤ c ∧ c ≤ 'f' then Option.some (c.toNat - 87)
  else if 'A' ≤ c ∧ c ≤ 'F' then Option.some (c.toNat - 55)
  else Option.none

/-- Parse the body of a JSON string literal (the opening quote already
consumed), returning the decoded characters and the remaining input. -/
def jsonParseStr : Nat → List Char → Except String (String × List Char)
  | 0, _ => Except.error "Unexpected end of JSON input"
  | _, [] => Except.error "Unexpected end of JSON input"
  | fuel + 1, c :: rest =>
    if c = '"' then Except.ok ("", rest)
    else if c = '\\' then
      match rest with
      | [] => Except.error "Unexpected end of JSON input"
      | e :: rest2 =>
        let decoded : Except String (Char × List Char) :=
          if e = '"' then Except.ok ('"', rest2)
          else if e = '\\' then Except.ok ('\\', rest2)
          else if e = '/' then Except.ok ('/', rest2)
          else if e = 'n' then Except.ok ('\n', rest2)
          else if e = 't' then Except.ok ('\t', rest2)
          else if e = 'r' then Except.ok ('\r', rest2)
          else if e = 'b' then Except.ok (Char.ofNat 8, rest2)
          else if e = 'f' then Except.ok (Char.ofNat 12, rest2)
          else if e = 'u' then
            match rest2 with
            | h1 :: h2 :: h3 :: h4 :: rest3 =>
              match hexDigitVal h1, hexDigitVal h2, hexDigitVal h3, hexDigitVal h4 with
              | Option.some a, Option.some b, Option.some c2, Option.some d =>
                Except.ok (Char.ofNat (((a * 16 + b) * 16 + c2) * 16 + d), rest3)
              | _, _, _, _ => Except.error "Bad Unicode escape in JSON"
            | _ => Except.error "Unexpected end of JSON input"
          else Except.error "Bad escaped character in JSON"
        match decoded with
        | Except.error msg => Except.error msg
        | Except.ok (ch, rest3) =>
          match jsonParseStr fuel rest3 with
          | Except.error msg => Except.error msg
          | Except.ok (s, rest4) => Except.ok (String.singleton ch ++ s, rest4)
    else
      match jsonParseStr fuel rest with
      | Except.error msg => Except.error msg
      | Except.ok (s, rest2) => Except.ok (String.singleton c ++ s, rest2)

/-- Parse a run of decimal digits. -/
def jsonParseDigits : Nat → List Char → (Nat × Nat × List Char)
  | 0, rest => (0, 0, rest)
  | fuel + 1, c :: rest =>
    if c.isDigit then
      let (count, val, rest2) := jsonParseDigits fuel rest
      (count + 1, (c.toNat - 48) * 10 ^ count + val, rest2)
    else (0, 0, c :: rest)
  | _ + 1, [] => (0, 0, [])

mutual

/-- Recursive-descent JSON value parser (model of `JSON.parse`), fueled by
the input length.  Numbers are restricted to integers: a fraction or an
exponent is rejected, which is the one place the model narrows `JSON.parse`. -/
def jsonParseV : Nat → List Char → Except String (Json × List Char)
  | 0, _ => Except.error "Unexpected end of JSON input"
  | _ + 1, [] => Except.error "Unexpected end of JSON input"
  | fuel + 1, c :: rest =>
    if c = 'n' then
      match rest with
      | 'u' :: 'l' :: 'l' :: rest2 => Except.ok (Json.null, rest2)
      | _ => Except.error "Unexpected token in JSON"
    else if c = 't' then
      match rest with
      | 'r' :: 'u' :: 'e' :: rest2 => Except.ok (Json.bool true, rest2)
      | _ => Except.error "Unexpected token in JSON"
    else if c = 'f' then
      match rest with
      | 'a' :: 'l' :: 's' :: 'e' :: rest2 => Except.ok (Json.bool false, rest2)
      | _ => Except.error "Unexpected token in JSON"
    else if c = '"' then
      match jsonParseStr fuel rest with
      | Except.error msg => Except.error msg
      | Except.ok (s, rest2) => Except.ok (Json.str s, rest2)
    else if c = '[' then
      match jsonSkipWs rest with
      | ']' :: rest2 => Except.ok (Json.arr [], rest2)
      | rest2 =>
        match jsonParseItems fuel rest2 with
        | Except.error msg => Except.error msg
        | Except.ok (elems, rest3) => Except.ok (Json.arr elems, rest3)
    else if c = '\x7b' then
      match jsonSkipWs rest with
      | '\x7d' :: rest2 => Except.ok (Json.obj [], rest2)
      | rest2 =>
        match jsonParseMembers fuel rest2 with
        | Except.error msg => Except.error msg
        | Except.ok (fields, rest3) => Except.ok (Json.obj fields, rest3)
    else if c = '-' ∨ c.isDigit then
      let (sign, digitsInput) : Int × List Char :=
        if c = '-' then (-1, rest) else (1, c :: rest)
      match jsonParseDigits (fuel + 1) digitsInput with
      | (0, _, _) => Except.error "Unexpected token in JSON"
      | (_ + 1, val, rest2) =>
        match rest2 with
        | '.' :: _ => Except.error "Non-integral JSON number not modelled"
        | 'e' :: _ => Except.error "Non-integral JSON number not modelled"
        | 'E' :: _ => Except.error "Non-integral JSON number not modelled"
        | _ => Except.ok (Json.num (sign * Int.ofNat val), rest2)
    else Except.error "Unexpected token in JSON"

/-- Parse the comma-separated elements of a non-empty array. -/
def jsonParseItems : Nat → List Char → Except String (List Json × List Char)
  | 0, _ => Except.error "Unexpected end of JSON input"
  | fuel + 1, input =>
    match jsonParseV fuel (jsonSkipWs input) with
    | Except.error msg => Except.error msg
    | Except.ok (v, rest) =>
      match jsonSkipWs rest with
      | ',' :: rest2 =>
        match jsonParseItems fuel rest2 with
        | Except.error msg => Except.error msg
        | Except.ok (elems, rest3) => Except.ok (v :: elems, rest3)
      | ']' :: rest2 => Except.ok ([v], rest2)
      | _ => Except.error "Unexpected token in JSON"

/-- Parse the comma-separated members of a non-empty object. -/
def jsonParseMembers : Nat → List Char → Except String (List (String × Json) × List Char)
  | 0, _ => Except.error "Unexpected end of JSON input"
  | fuel + 1, input =>
    match jsonSkipWs input with
    | '"' :: rest =>
      match jsonParseStr fuel rest with
      | Except.error msg => Except.error msg
      | Except.ok (k, rest2) =>
        match jsonSkipWs rest2 with
        | ':' :: rest3 =>
          match jsonParseV fuel (jsonSkipWs rest3) with
          | Except.error msg => Except.error msg
          | Except.ok (v, rest4) =>
            match jsonSkipWs rest4 with
            | ',' :: rest5 =>
              match jsonParseMembers fuel rest5 with
              | Except.error msg => Except.error msg
              | Except.ok (fields, rest6) => Except.ok ((k, v) :: fields, rest6)
            | '\x7d' :: rest5 => Except.ok ([(k, v)], rest5)
            | _ => Except.error "Unexpected token in JSON"
        | _ => Except.error "Unexpected token in JSON"
    | _ => Except.error "Unexpected token in JSON"

end

/-- `JSON.parse(s)`: parse one JSON value and require only whitespace after
it.  `Except.error` models the thrown `SyntaxError` (the error string stands
for the engine-specific exception message). -/
def jsonParse (s : String) : Except String Json :=
  match jsonParseV (s.length + 1) (jsonSkipWs s.data) with
  | Except.error msg => Except.error msg
  | Except.ok (v, rest) =>
    match jsonSkipWs rest with
    | [] => Except.ok v
    | _ => Except.error "Unexpected token after JSON value"

/-- `true` iff `JSON.parse` succeeds on `s`. -/
def jsonParseOk (s : String) : Bool :=
  match jsonParse s with
  | Except.ok _ => true
  | Except.error _ => false

/-!
Client-side Stream Reconstructor, from `src/web/src/hooks/use-chat.ts`.

`ChatMessageUI` mirrors the interface of the same name; optional TypeScript
properties (`toolCalls?`, `isStreaming?`, `result?`) are `Option`s, and
runtime values read out of parsed event payloads are `Json`.  `content` is
`Option Json` because the `message` handler stores `event.content`, which at
runtime is whatever the payload carried (or `undefined`).
-/

/-- One entry of a UI message's tool-call list
(`{ name, args, result? }`). -/
structure ToolCallUI where
  name : Option Json
  args : Option Json
  result : Option Json

/-- One rendered chat bubble (interface `ChatMessageUI`). -/
structure ChatMessageUI where
  id : String
  role : String
  content : Option Json
  toolCalls : Option (List ToolCallUI)
  isStreaming : Option Bool

/-- The client state touched by the reconstructor: the message list plus the
single `status` field. -/
structure ClientState where
  msgs : List ChatMessageUI
  status : Option Json

/-- `Array.prototype.findLastIndex`: index of the last element satisfying
`p`, or `none` (the source's `-1`). -/
def findLastIdx {α : Type} (p : α → Bool) : List α → Option Nat
  | [] => Option.none
  | x :: rest =>
    match findLastIdx p rest with
    | Option.some i => Option.some (i + 1)
    | Option.none => if p x then Option.some 0 else Option.none

/-- The `tool_result` handler's update of a tool-call list: find the last
entry with matching `name` and a falsy `result`, and attach the result to
it (lines 180–185 of `use-chat.ts`). -/
def attachResult (toolName res : Option Json) (toolCalls : List ToolCallUI) :
    List ToolCallUI :=
  match findLastIdx (fun tc => jsStrictEqO tc.name toolName && jsFalsy tc.result) toolCalls with
  | Option.some i =>
    match toolCalls.get? i with
    | Option.some tc => toolCalls.set i { tc with result := res }
    | Option.none => toolCalls
  | Option.none => toolCalls

/-- `handleEvent` from `use-chat.ts`: one parsed SSE event (its `type` tag
plus the parsed JSON payload) applied to the client state.  Unknown types —
including the empty tag — fall through the `switch` and leave the state
unchanged. -/
def handleEvent (etype : String) (j : Json) (assistantId : String)
    (st : ClientState) : ClientState :=
  if etype = "status" then
    { st with status := jsField j "message" }
  else if etype = "tool_call" then
    { st with msgs := st.msgs.map (fun m =>
        if m.id == assistantId then
          { m with toolCalls := Option.some ((m.toolCalls.getD []) ++
              [{ name := jsField j "tool_name", args := jsField j "arguments",
                 result := Option.none }]) }
        else m) }
  else if etype = "tool_result" then
    { st with msgs := st.msgs.map (fun m =>
        if m.id == assistantId then
          { m with toolCalls :=
              Option.some (attachResult (jsField j "tool_name") (jsField j "result")
                (m.toolCalls.getD [])) }
        else m) }
  else if etype = "message" then
    { st with msgs := st.msgs.map (fun m =>
        if m.id == assistantId then { m with content := jsField j "content" } else m) }
  else if etype = "error" then
    { st with msgs := st.msgs.map (fun m =>
        if m.id == assistantId then
          { m with content := Option.some (Json.str ("Error: " ++ jsToString (jsField j "message"))),
                   isStreaming := Option.some false }
        else m) }
  else st

/-- `true` for parsed payloads that accept a `parsed.type = eventType`
property assignment.  In strict mode that assignment throws a `TypeError`
on primitives, and the surrounding `try` then skips the frame, so only
objects and arrays reach `handleEvent`. -/
def jsAssignable : Json → Bool
  | Json.obj _ => true
  | Json.arr _ => true
  | _ => false

/-- The body of the `data:` branch of the read loop: `JSON.parse` the
payload, tag it with the current event type, and apply `handleEvent`;
any exception (undecodable payload, primitive payload) is swallowed. -/
def decodeAndHandle (etype data : String) (assistantId : String)
    (st : ClientState) : ClientState :=
  match jsonParse data with
  | Except.error _ => st
  | Except.ok j => if jsAssignable j then handleEvent etype j assistantId st else st

/-- `String.prototype.split("\n")` on a character list: every occurrence of
the separator splits, and the result is always non-empty. -/
def splitNl : List Char → List (List Char)
  | [] => [[]]
  | c :: rest =>
    if c = '\n' then [] :: splitNl rest
    else
      match splitNl rest with
      | l :: ls => (c :: l) :: ls
      | [] => [[c]]

/-- One line of the read loop's `for` body: an `event: ` line latches the
event type, a `data: ` line decodes and dispatches, anything else is
skipped.  The accumulator carries the current `eventType` and the state. -/
def processLine (assistantId : String) (acc : String × ClientState)
    (line : List Char) : String × ClientState :=
  if "event: ".data.isPrefixOf line then
    (String.mk (line.drop 7), acc.2)
  else if "data: ".data.isPrefixOf line then
    (acc.1, decodeAndHandle acc.1 (String.mk (line.drop 6)) assistantId acc.2)
  else acc

/-- One iteration of the read loop (lines 105–128 of `use-chat.ts`): append
the chunk to the carry-over buffer, split on newlines, keep the trailing
partial line as the new buffer, and process the complete lines with the
event type reset to `""`. -/
def processChunk (assistantId : String) (acc : ClientState × List Char)
    (chunk : String) : ClientState × List Char :=
  let buf := acc.2 ++ chunk.data
  let parts := splitNl buf
  let lines := parts.dropLast
  let buffer := (parts.getLast?).getD []
  ((lines.foldl (processLine assistantId) ("", acc.1)).2, buffer)

/-- The optimistic user bubble appended on submit.  A pending file upload
prepends an `[Uploaded file: …]` note to the content. -/
def initialUserMsg (t content : String) (fileBase64 fileName : Option String) :
    ChatMessageUI :=
  let content2 :=
    match fileBase64, fileName with
    | Option.some _, Option.some fn => "[Uploaded file: " ++ fn ++ "]\n\n" ++ content
    | _, _ => content
  { id := "tmp-" ++ t, role := "user", content := Option.some (Json.str content2),
    toolCalls := Option.none, isStreaming := Option.none }

/-- The placeholder assistant bubble appended on submit. -/
def initialAssistantMsg (t : String) : ChatMessageUI :=
  { id := "tmp-" ++ t ++ "-assistant", role := "assistant",
    content := Option.some (Json.str ""), toolCalls := Option.some [],
    isStreaming := Option.some true }

/-- The id of the streaming assistant bubble for a submit at time `t`. -/
def assistantIdOf (t : String) : String := "tmp-" ++ t ++ "-assistant"

/-- `sendMessage`'s happy path (`res.ok`, no abort): create the two
optimistic bubbles, drain the response chunks through the read loop, then
mark the assistant bubble as no longer streaming and clear the status.  The
final carry-over buffer is discarded, exactly as in the source. -/
def clientRun (t content : String) (fileBase64 fileName : Option String)
    (chunks : List String) : ClientState :=
  let aid := assistantIdOf t
  let st0 : ClientState :=
    { msgs := [initialUserMsg t content fileBase64 fileName, initialAssistantMsg t],
      status := Option.none }
  let looped := (chunks.foldl (processChunk aid) (st0, [])).1
  { msgs := looped.msgs.map (fun m =>
      if m.id == aid then { m with isStreaming := Option.some false } else m),
    status := Option.none }

/-- The `(eventType, data)` pairs decoded by the read loop, replayed over
the same chunking; used to state hypotheses about which events a run
received. -/
def collectPairs (chunks : List String) : List (String × String) :=
  let step := fun (acc : List (String × String) × String × List Char) (chunk : String) =>
    let buf := acc.2.2 ++ chunk.data
    let parts := splitNl buf
    let lineStep := fun (a : List (String × String) × String) (line : List Char) =>
      if "event: ".data.isPrefixOf line then (a.1, String.mk (line.drop 7))
      else if "data: ".data.isPrefixOf line then
        (a.1 ++ [(a.2, String.mk (line.drop 6))], a.2)
      else a
    let folded := parts.dropLast.foldl lineStep (acc.1, "")
    (folded.1, folded.2, (parts.getLast?).getD [])
  (chunks.foldl step ([], "", [])).1

/-!
Conversation Orchestrator, from `src/web/src/app/api/chat/route.ts` (POST).

The completion backend is an oracle `Nat → ORResp` giving the outcome of the
`n`-th completion call of the turn, and the tool registry is an oracle
`String → Json → String` (the route awaits `executeTool`, which resolves to
a string; the executor itself is modelled separately below).  The Supabase
history store is a list of persisted rows in creation order; the route's
batched `insert` appends the batch.  Event payload serialization (`send`)
is modelled at the structured level.
-/

/-- A tool call as found in a completion response
(`{ id, function: { name, arguments } }`). -/
structure ToolCallRec where
  id : String
  name : String
  arguments : String

/-- Outcome of one completion-backend call, as observed by the route:
a non-2xx response (`httpErr`, body read via `text()`), a 2xx response
without a usable choice (`noChoice`), a rejected fetch or body read
(`reject`, the thrown error's message), or a choice message
(`success`, with its `content` and `tool_calls`). -/
inductive ORResp where
  | httpErr (status : Nat) (body : String)
  | noChoice
  | reject (msg : String)
  | success (content : Option String) (tool_calls : List ToolCallRec)

/-- One SSE event as produced by `send(event, data)`. -/
inductive SEvent where
  | status (message : String)
  | toolCall (tool_name : String) (arguments : Json)
  | toolResult (tool_name : String) (result : String)
  | message (content : String)
  | error (message : String)
  | done

/-- One row of `messagesToPersist` (a `chat_messages` insert). -/
structure PersistMsg where
  project_id : String
  role : String
  content : String
  tool_calls : Option (List ToolCallRec)
  tool_call_id : Option String
  tool_name : Option String

/-- One entry of the conversation sent to the completion backend. -/
structure ORMsg where
  role : String
  content : Option String
  tool_calls : Option (List ToolCallRec)
  tool_call_id : Option String

/-- `MAX_TOOL_ROUNDS` from `route.ts`. -/
def MAX_TOOL_ROUNDS : Nat := 10

/-- `tc.function.arguments || "{}"`: the empty string is falsy, so it is
replaced by `"{}"` before `JSON.parse`. -/
def argStrOf (tc : ToolCallRec) : String :=
  if tc.arguments = "" then "\x7b\x7d" else tc.arguments

/-- The `for (const tc of assistantMsg.tool_calls)` body (lines 154–183):
per call, parse the arguments, emit `tool_call` and `status`, run the tool,
emit `tool_result`, and append the tool message to the conversation and the
persistence batch.  A `JSON.parse` failure throws: the function returns the
events emitted so far together with `some` thrown message, and the
conversation/batch state at the moment of the throw. -/
def processToolCalls (toolFn : String → Json → String) (projectId : String) :
    List ToolCallRec → List ORMsg → List PersistMsg →
    List SEvent × List ORMsg × List PersistMsg × Option String
  | [], conv, persist => ([], conv, persist, Option.none)
  | tc :: rest, conv, persist =>
    match jsonParse (argStrOf tc) with
    | Except.error e => ([], conv, persist, Option.some e)
    | Except.ok args =>
      let result := toolFn tc.name args
      let evs := [SEvent.toolCall tc.name args,
                  SEvent.status ("Calling " ++ tc.name ++ "..."),
                  SEvent.toolResult tc.name result]
      let conv2 := conv ++ [{ role := "tool", content := Option.some result,
                              tool_calls := Option.none, tool_call_id := Option.some tc.id }]
      let persist2 := persist ++ [{ project_id := projectId, role := "tool",
                                    content := result, tool_calls := Option.none,
                                    tool_call_id := Option.some tc.id,
                                    tool_name := Option.some tc.name }]
      let r := processToolCalls toolFn projectId rest conv2 persist2
      (evs ++ r.1, r.2.1, r.2.2.1, r.2.2.2)

/-- The `while (rounds < MAX_TOOL_ROUNDS)` loop (lines 105–208), including
the surrounding `try`/`catch` that turns any thrown error into one `error`
event.  `fuel` is `MAX_TOOL_ROUNDS - rounds`; the `n`-th completion call
consults `backend n`.  Returns the events emitted by the loop (the final
`done` is appended by the caller), the final persistence batch, and the
number of completion calls made. -/
def chatLoop (backend : Nat → ORResp) (toolFn : String → Json → String)
    (projectId : String) :
    Nat → Nat → List ORMsg → List PersistMsg → List SEvent × List PersistMsg × Nat
  | 0, _, _, persist => ([], persist, 0)
  | fuel + 1, n, conv, persist =>
    match backend n with
    | ORResp.httpErr status body =>
      ([SEvent.error ("LLM API error: " ++ toString status ++ " " ++ body)], persist, 1)
    | ORResp.reject msg => ([SEvent.error msg], persist, 1)
    | ORResp.noChoice => ([SEvent.error "No response from LLM"], persist, 1)
    | ORResp.success content toolCalls =>
      let conv2 := conv ++ [{ role := "assistant", content := content,
                              tool_calls := if toolCalls.isEmpty then Option.none
                                            else Option.some toolCalls,
                              tool_call_id := Option.none }]
      if toolCalls.isEmpty then
        ([SEvent.message (content.getD "")],
         persist ++ [{ project_id := projectId, role := "assistant",
                       content := content.getD "", tool_calls := Option.none,
                       tool_call_id := Option.none, tool_name := Option.none }], 1)
      else
        let persist2 := persist ++ [{ project_id := projectId, role := "assistant",
                                      content := content.getD "",
                                      tool_calls := Option.some toolCalls,
                                      tool_call_id := Option.none, tool_name := Option.none }]
        let r := processToolCalls toolFn projectId toolCalls conv2 persist2
        match r.2.2.2 with
        | Option.some thrownMsg => (r.1 ++ [SEvent.error thrownMsg], r.2.2.1, 1)
        | Option.none =>
          let r2 := chatLoop backend toolFn projectId fuel (n + 1) r.2.1 r.2.2.1
          (r.1 ++ r2.1, r2.2.1, r2.2.2 + 1)

/-- The result of one POST turn: the emitted event sequence, the
`messagesToPersist` batch, the history store after the turn, and the number
of completion-backend calls. -/
structure ChatOutcome where
  events : List SEvent
  batch : List PersistMsg
  store : List PersistMsg
  calls : Nat

/-- A persisted row mapped back into a conversation entry (lines 61–69). -/
def persistToOR (m : PersistMsg) : ORMsg :=
  { role := m.role, content := Option.some m.content,
    tool_calls := m.tool_calls, tool_call_id := m.tool_call_id }

/-- The persisted row for one new client message (lines 91–100). -/
def userPersist (projectId : String) (m : String × String) : PersistMsg :=
  { project_id := projectId, role := m.1, content := m.2,
    tool_calls := Option.none, tool_call_id := Option.none, tool_name := Option.none }

/-- One POST turn of the orchestrator (`route.ts`, lines 30–216), after the
auth check succeeded.  `projectId = ""` models an absent or empty
`projectId` (both are falsy in the source's `if (projectId)` guards);
`systemPrompt` is `buildSystemPrompt(projectName)`, whose text comes from
the project row and is irrelevant to the orchestration.  History is loaded
from the store only when `projectId` is truthy; the batch is inserted only
when `projectId` is truthy and the batch is non-empty; `done` is always
emitted last. -/
def postChat (projectId : String) (clientMessages : List (String × String))
    (systemPrompt : String) (backend : Nat → ORResp)
    (toolFn : String → Json → String) (store : List PersistMsg) : ChatOutcome :=
  let history := if projectId ≠ "" then
      (store.filter (fun m => m.project_id == projectId)).map persistToOR
    else []
  let conv0 : List ORMsg :=
    { role := "system", content := Option.some systemPrompt,
      tool_calls := Option.none, tool_call_id := Option.none } ::
    history ++ clientMessages.map (fun m =>
      { role := m.1, content := Option.some m.2,
        tool_calls := Option.none, tool_call_id := Option.none })
  let persist0 := clientMessages.map (userPersist projectId)
  let r := chatLoop backend toolFn projectId MAX_TOOL_ROUNDS 0 conv0 persist0
  { events := r.1 ++ [SEvent.done],
    batch := r.2.1,
    store := if projectId != "" && !(r.2.1).isEmpty then store ++ r.2.1 else store,
    calls := r.2.2 }

/-!
Tool Registry dispatch, from `src/web/src/lib/tools/executor.ts`.

The external extraction service is an oracle `ApiRequest → HttpOutcome`.
The source assembles query strings through `URLSearchParams` and interpolates
path segments as strings; the model hands the request to the oracle in
structured form (ordered key–value query list, path with interpolated
segments, method, body kind), leaving the injective wire serialization to
the platform.  `params.set` is modelled by appending, which agrees with the
source because no handler sets the same key twice.
-/

/-- The body of an extractor-API request: none, a JSON body
(`JSON.stringify(args.config)`, which is `undefined` — `Option.none` — when
the `config` argument is missing), or a multipart file part. -/
inductive RequestBody where
  | empty
  | jsonBody (s : Option String)
  | multipart (fileName : String) (mime : String)

/-- One request made by the `api` helper. -/
structure ApiRequest where
  path : String
  query : List (String × String)
  method : String
  body : RequestBody

/-- Outcome of one `fetch` against the extraction service: a response with
status and body text, or a rejected fetch (thrown error message). -/
inductive HttpOutcome where
  | resp (status : Nat) (body : String)
  | netThrow (msg : String)

/-- UTF-8 bytes of one character. -/
def utf8Bytes (c : Char) : List Nat :=
  let n := c.toNat
  if n < 128 then [n]
  else if n < 2048 then [192 + n / 64, 128 + n % 64]
  else if n < 65536 then [224 + n / 4096, 128 + n / 64 % 64, 128 + n % 64]
  else [240 + n / 262144, 128 + n / 4096 % 64, 128 + n / 64 % 64, 128 + n % 64]

/-- `encodeURIComponent`: unreserved characters pass through, everything
else is percent-encoded bytewise. -/
def encodeURIComponent (s : String) : String :=
  String.join (s.data.map (fun c =>
    if c.isAlphanum ∨ c = '-' ∨ c = '_' ∨ c = '.' ∨ c = '!' ∨ c = '~' ∨ c = '*' ∨
        c = Char.ofNat 39 ∨ c = '(' ∨ c = ')' then
      String.singleton c
    else String.join ((utf8Bytes c).map (fun b => "%" ++ hex2 b))))

/-- The `api` helper (lines 4–12 of `executor.ts`): perform the request;
a non-2xx status throws `Extractor API <status>: <body>`, a 204 resolves to
`null`, anything else resolves to the parsed JSON body (a parse failure
throws). -/
def api (http : ApiRequest → HttpOutcome) (r : ApiRequest) : Except String Json :=
  match http r with
  | HttpOutcome.netThrow msg => Except.error msg
  | HttpOutcome.resp status body =>
    if !(200 ≤ status ∧ status ≤ 299) then
      Except.error ("Extractor API " ++ toString status ++ ": " ++ body)
    else if status = 204 then Except.ok Json.null
    else jsonParse body

/-- `MAX_RESULT_CHARS` from `executor.ts`. -/
def MAX_RESULT_CHARS : Nat := 30000

/-- `truncate` (lines 14–21 of `executor.ts`): serialize the result with
2-space indentation; if the serialization exceeds the character budget,
keep the first `MAX_RESULT_CHARS` characters and append a truncation
notice. -/
def truncate (result : Json) : String :=
  let json := stringify2 result
  if json.length ≤ MAX_RESULT_CHARS then json
  else
    json.take MAX_RESULT_CHARS ++
      ("\n\n[Truncated: result was " ++ toString json.length ++ " chars, showing first " ++
        toString MAX_RESULT_CHARS ++ "]")

/-- `fileName ?? default` for the nullish-coalesced file-name argument. -/
def fileNameOf (v : Option Json) (dflt : String) : String :=
  match v with
  | Option.none => dflt
  | Option.some Json.null => dflt
  | Option.some w => jsToStringV w

/-- The query parameters shared by `extract_document` and `extract_sheet`
(`config` when truthy, `upload` when not `undefined`). -/
def configUploadQuery (args : Json) : List (String × String) :=
  (if jsTruthy (jsField args "config") then
    [("config", jsToString (jsField args "config"))] else []) ++
  (if (jsField args "upload").isSome then
    [("upload", jsToString (jsField args "upload"))] else [])

/-- The sheet-extension MIME map from `extract_sheet`. -/
def sheetMime (ext : String) : String :=
  if ext = "csv" then "text/csv"
  else if ext = "xlsx" then
    "application/vnd.openxmlformats-officedocument.spreadsheetml.sheet"
  else if ext = "xls" then "application/vnd.ms-excel"
  else if ext = "pdf" then "application/pdf"
  else "application/octet-stream"

/-- The `switch (name)` body of `executeTool` (lines 27–177), with `api`
failures propagating as `Except.error`. -/
def executeToolBody (http : ApiRequest → HttpOutcome) (name : String)
    (args : Json) : Except String String :=
  if name = "list_configs" then
    (api http { path := "/configs", query := [], method := "GET",
                body := RequestBody.empty }).map truncate
  else if name = "list_extractions" then
    let q := if jsTruthy (jsField args "readable_id") then
        [("readable_id", jsToString (jsField args "readable_id"))] else []
    (api http { path := "/extractions", query := q, method := "GET",
                body := RequestBody.empty }).map truncate
  else if name = "extract_document" then
    if jsTruthy (jsField args "file_url") then
      (api http { path := "/extract",
                  query := ("file_url", jsToString (jsField args "file_url")) ::
                    configUploadQuery args,
                  method := "POST", body := RequestBody.empty }).map truncate
    else if jsTruthy (jsField args "file_base64") then
      (api http { path := "/extract", query := configUploadQuery args,
                  method := "POST",
                  body := RequestBody.multipart
                    (fileNameOf (jsField args "file_name") "document.pdf")
                    "application/pdf" }).map truncate
    else
      Except.ok (stringifyCompact (Json.obj
        [("error", Json.str "Provide file_base64 or file_url")]))
  else if name = "get_extraction_snapshot" then
    (api http { path := "/extractions/" ++ jsToString (jsField args "extraction_id") ++
                  "/snapshot",
                query := [], method := "GET", body := RequestBody.empty }).map truncate
  else if name = "get_node" then
    (api http { path := "/extractions/" ++ jsToString (jsField args "extraction_id") ++
                  "/node/" ++ jsToString (jsField args "node_id"),
                query := [], method := "GET", body := RequestBody.empty }).map truncate
  else if name = "get_content" then
    let s := jsToString (jsField args "ref")
    let refPath := if s.startsWith "content://" then s.drop 10 else s
    let q := (if (jsField args "offset").isSome then
        [("offset", jsToString (jsField args "offset"))] else []) ++
      (if (jsField args "limit").isSome then
        [("limit", jsToString (jsField args "limit"))] else [])
    (api http { path := "/content/" ++ refPath, query := q, method := "GET",
                body := RequestBody.empty }).map truncate
  else if name = "extract_sheet" then
    if jsTruthy (jsField args "file_url") then
      (api http { path := "/extract-sheet",
                  query := ("file_url", jsToString (jsField args "file_url")) ::
                    configUploadQuery args,
                  method := "POST", body := RequestBody.empty }).map truncate
    else if jsTruthy (jsField args "file_base64") then
      let fn := fileNameOf (jsField args "file_name") "data.csv"
      let ext := (((fn.splitOn ".").getLast?).getD "").toLower
      (api http { path := "/extract-sheet", query := configUploadQuery args,
                  method := "POST",
                  body := RequestBody.multipart fn (sheetMime ext) }).map truncate
    else
      Except.ok (stringifyCompact (Json.obj
        [("error", Json.str "Provide file_base64 or file_url")]))
  else if name = "list_datasets" then
    (api http { path := "/datasets", query := [], method := "GET",
                body := RequestBody.empty }).map truncate
  else if name = "get_dataset" then
    (api http { path := "/datasets/" ++ jsToString (jsField args "dataset_id"),
                query := [], method := "GET", body := RequestBody.empty }).map truncate
  else if name = "query_dataset_rows" then
    let q := ("schema_name", jsToString (jsField args "schema_name")) ::
      (if (jsField args "offset").isSome then
        [("offset", jsToString (jsField args "offset"))] else []) ++
      (if (jsField args "limit").isSome then
        [("limit", jsToString (jsField args "limit"))] else [])
    (api http { path := "/datasets/" ++ jsToString (jsField args "dataset_id") ++ "/rows",
                query := q, method := "GET", body := RequestBody.empty }).map truncate
  else if name = "create_config" then
    (api http { path := "/configs", query := [], method := "POST",
                body := RequestBody.jsonBody
                  ((jsField args "config").map stringifyCompact) }).map truncate
  else if name = "update_config" then
    (api http { path := "/configs/" ++ encodeURIComponent (jsToString (jsField args "name")),
                query := [], method := "PUT",
                body := RequestBody.jsonBody
                  ((jsField args "config").map stringifyCompact) }).map truncate
  else if name = "delete_config" then
    match api http { path := "/configs/" ++
                       encodeURIComponent (jsToString (jsField args "name")),
                     query := [], method := "DELETE", body := RequestBody.empty } with
    | Except.error e => Except.error e
    | Except.ok _ =>
      let quote := String.singleton (Char.ofNat 39)
      Except.ok (stringifyCompact (Json.obj
        [("success", Json.bool true),
         ("message", Json.str ("Config " ++ quote ++ jsToString (jsField args "name") ++
           quote ++ " deleted"))]))
  else
    Except.ok (stringifyCompact (Json.obj [("error", Json.str ("Unknown tool: " ++ name))]))

/-- `executeTool` (lines 23–183): the `switch` wrapped in the catch-all that
turns any thrown error into a JSON error payload, so dispatch always
returns a string. -/
def executeTool (http : ApiRequest → HttpOutcome) (name : String) (args : Json) : String :=
  match executeToolBody http name args with
  | Except.ok s => s
  | Except.error e => stringifyCompact (Json.obj [("error", Json.str e)])

/-- The closed catalogue of tool names known to the dispatcher. -/
def toolNames : List String :=
  ["list_configs", "list_extractions", "extract_document", "get_extraction_snapshot",
   "get_node", "get_content", "extract_sheet", "list_datasets", "get_dataset",
   "query_dataset_rows", "create_config", "update_config", "delete_config"]

/-!
Analysis-level definitions used by the theorems below.
-/

/-- Events emitted only inside a round's tool-processing phase
(`tool_call`, `status`, `tool_result`); in particular neither `message`,
`error` nor `done`. -/
def isToolish : SEvent → Bool
  | SEvent.toolCall _ _ => true
  | SEvent.status _ => true
  | SEvent.toolResult _ _ => true
  | _ => false

/-- The `j`-th completion call returns a well-formed tool-calling response:
a choice with a non-empty `tool_calls` list whose `arguments` fields are
JSON-decodable (spec §3 requires ToolCall arguments to be JSON-encoded
objects). -/
def goodToolRound (backend : Nat → ORResp) (j : Nat) : Prop :=
  ∃ c tcs, backend j = ORResp.success c tcs ∧ tcs ≠ [] ∧
    ∀ tc ∈ tcs, jsonParseOk (argStrOf tc) = true

/-- One wire frame: `event: <etype>\ndata: <payload>\n\n` (spec §6). -/
structure Frame where
  etype : String
  payload : String

/-- The serialized form of one frame, as written by the server's `send`. -/
def renderFrame (f : Frame) : String :=
  "event: " ++ f.etype ++ "\ndata: " ++ f.payload ++ "\n\n"

/-- The concatenation of a run of frames (what the server writes to the
connection for those events). -/
def renderFrames : List Frame → String
  | [] => ""
  | f :: rest => renderFrame f ++ renderFrames rest

/-- A frame whose event tag and payload contain no raw newline — true of
every frame the server emits, since `JSON.stringify` escapes newlines. -/
def wellFormedFrame (f : Frame) : Prop :=
  ¬ '\n' ∈ f.etype.data ∧ ¬ '\n' ∈ f.payload.data

/-- The effect of one complete frame on the client state: decode its
payload under its event tag and dispatch. -/
def applyFrame (aid : String) (st : ClientState) (f : Frame) : ClientState :=
  decodeAndHandle f.etype f.payload aid st

/-- The complete newline-terminated lines of a run of frames, in order
(each frame contributes its `event:` line, its `data:` line and the blank
separator line). -/
def frameLines : List Frame → List (List Char)
  | [] => []
  | f :: rest =>
    ("event: ".data ++ f.etype.data) :: ("data: ".data ++ f.payload.data) :: [] ::
      frameLines rest

/-- A message with its tool-call list replaced (`{ ...m, toolCalls }`). -/
def withToolCalls (m : ChatMessageUI) (tcs : List ToolCallUI) : ChatMessageUI :=
  { m with toolCalls := Option.some tcs }

/-- An unresolved tool-call entry named `"t"` with the given arguments. -/
def c2Call (a : Option Json) : ToolCallUI :=
  { name := Option.some (Json.str "t"), args := a, result := Option.none }

/-- An assistant bubble holding two unresolved tool calls of the same
name, distinguishable by their arguments. -/
def c2Msg : ChatMessageUI :=
  { id := "a", role := "assistant", content := Option.some (Json.str ""),
    toolCalls := Option.some [c2Call (Option.some (Json.obj [])),
      c2Call (Option.some (Json.obj [("k", Json.num 1)]))],
    isStreaming := Option.some true }

/-- A `tool_result` payload for tool `"t"` carrying result `r`. -/
def c2Event (r : String) : Json :=
  Json.obj [("tool_name", Json.str "t"), ("result", Json.str r)]

/-- The state after applying the two results `"r1"` then `"r2"` to the
two-unresolved-calls state. -/
def c2Final : ClientState :=
  handleEvent "tool_result" (c2Event "r2") "a"
    (handleEvent "tool_result" (c2Event "r1") "a"
      { msgs := [c2Msg], status := Option.none })

/-!
Helper lemmas.
-/

/-- A map whose function fixes every element of the list is the identity. -/
theorem mapIdOn {α : Type} (l : List α) (f : α → α) (h : ∀ x ∈ l, f x = x) :
    l.map f = l := by
  conv_rhs => rw [← List.map_id l]
  exact List.map_congr_left h

/-- A non-2xx response makes the `api` helper throw the
`Extractor API <status>: <body>` error for every request. -/
theorem api_resp_fail (status : Nat) (body : String)
    (hs : ¬(200 ≤ status ∧ status ≤ 299)) (r : ApiRequest) :
    api (fun _ => HttpOutcome.resp status body) r =
      Except.error ("Extractor API " ++ toString status ++ ": " ++ body) := by
  simp [api, hs]

/-- A rejected fetch makes the `api` helper throw the fetch error. -/
theorem api_netThrow (msg : String) (r : ApiRequest) :
    api (fun _ => HttpOutcome.netThrow msg) r = Except.error msg := by
  simp [api]

/-- A failed completion call ends the loop with a single `error` event,
leaving the persistence batch untouched, after one completion call. -/
theorem chatLoop_httpErr (backend : Nat → ORResp) (toolFn : String → Json → String)
    (pid : String) (fuel n : Nat) (conv : List ORMsg) (persist : List PersistMsg)
    (status : Nat) (body : String) (h : backend n = ORResp.httpErr status body) :
    chatLoop backend toolFn pid (fuel + 1) n conv persist =
      ([SEvent.error ("LLM API error: " ++ toString status ++ " " ++ body)], persist, 1) := by
  simp [chatLoop, h]

/-- The events and the thrown-exception component of the tool-processing
phase do not depend on the project id, the conversation, or the batch so
far. -/
theorem processToolCalls_indep (toolFn : String → Json → String) (tcs : List ToolCallRec) :
    ∀ (pid pid' : String) (conv conv' : List ORMsg) (persist persist' : List PersistMsg),
      (processToolCalls toolFn pid tcs conv persist).1 =
        (processToolCalls toolFn pid' tcs conv' persist').1 ∧
      (processToolCalls toolFn pid tcs conv persist).2.2.2 =
        (processToolCalls toolFn pid' tcs conv' persist').2.2.2 := by
  induction tcs with
  | nil => intro pid pid' conv conv' persist persist'; simp [processToolCalls]
  | cons tc rest ih =>
    intro pid pid' conv conv' persist persist'
    simp only [processToolCalls]
    cases hp : jsonParse (argStrOf tc) with
    | error e => simp
    | ok args =>
      obtain ⟨h1, h2⟩ := ih pid pid'
        (conv ++ [⟨"tool", Option.some (toolFn tc.name args), Option.none, Option.some tc.id⟩])
        (conv' ++ [⟨"tool", Option.some (toolFn tc.name args), Option.none, Option.some tc.id⟩])
        (persist ++ [⟨pid, "tool", toolFn tc.name args, Option.none, Option.some tc.id,
          Option.some tc.name⟩])
        (persist' ++ [⟨pid', "tool", toolFn tc.name args, Option.none, Option.some tc.id,
          Option.some tc.name⟩])
      simp [h1, h2]

/-- The emitted events and the completion-call count of the round loop do
not depend on the project id, the conversation, or the batch so far. -/
theorem chatLoop_indep (backend : Nat → ORResp) (toolFn : String → Json → String) :
    ∀ (fuel n : Nat) (pid pid' : String) (conv conv' : List ORMsg)
      (persist persist' : List PersistMsg),
      (chatLoop backend toolFn pid fuel n conv persist).1 =
        (chatLoop backend toolFn pid' fuel n conv' persist').1 ∧
      (chatLoop backend toolFn pid fuel n conv persist).2.2 =
        (chatLoop backend toolFn pid' fuel n conv' persist').2.2 := by
  intro fuel
  induction fuel with
  | zero => intro n pid pid' conv conv' persist persist'; simp [chatLoop]
  | succ f ih =>
    intro n pid pid' conv conv' persist persist'
    simp only [chatLoop]
    cases hb : backend n with
    | httpErr s b => simp
    | reject m => simp
    | noChoice => simp
    | success content tcs =>
      cases he : tcs.isEmpty with
      | true => simp [he]
      | false =>
        simp only [he, Bool.false_eq_true, if_false]
        obtain ⟨p1, p2⟩ := processToolCalls_indep toolFn tcs pid pid'
          (conv ++ [⟨"assistant", content, Option.some tcs, Option.none⟩])
          (conv' ++ [⟨"assistant", content, Option.some tcs, Option.none⟩])
          (persist ++ [⟨pid, "assistant", content.getD "", Option.some tcs, Option.none,
            Option.none⟩])
          (persist' ++ [⟨pid', "assistant", content.getD "", Option.some tcs, Option.none,
            Option.none⟩])
        rw [← p2]
        cases hth : (processToolCalls toolFn pid tcs
            (conv ++ [⟨"assistant", content, Option.some tcs, Option.none⟩])
            (persist ++ [⟨pid, "assistant", content.getD "", Option.some tcs, Option.none,
              Option.none⟩])).2.2.2 with
        | some m => simp [p1]
        | none =>
          obtain ⟨i1, i2⟩ := ih (n + 1) pid pid'
            ((processToolCalls toolFn pid tcs
              (conv ++ [⟨"assistant", content, Option.some tcs, Option.none⟩])
              (persist ++ [⟨pid, "assistant", content.getD "", Option.some tcs, Option.none,
                Option.none⟩])).2.1)
            ((processToolCalls toolFn pid' tcs
              (conv' ++ [⟨"assistant", content, Option.some tcs, Option.none⟩])
              (persist' ++ [⟨pid', "assistant", content.getD "", Option.some tcs, Option.none,
                Option.none⟩])).2.1)
            ((processToolCalls toolFn pid tcs
              (conv ++ [⟨"assistant", content, Option.some tcs, Option.none⟩])
              (persist ++ [⟨pid, "assistant", content.getD "", Option.some tcs, Option.none,
                Option.none⟩])).2.2.1)
            ((processToolCalls toolFn pid' tcs
              (conv' ++ [⟨"assistant", content, Option.some tcs, Option.none⟩])
              (persist' ++ [⟨pid', "assistant", content.getD "", Option.some tcs, Option.none,
                Option.none⟩])).2.2.1)
          simp [p1, i1, i2]

/-!
Claim theorems.
-/

set_option maxRecDepth 10000 in
/-- Claim C8: for every successful tool result, if the 2-space-indented JSON
serialization is at most 30,000 characters it is returned unchanged by
`truncate`, and otherwise the returned text is the first 30,000 characters
followed by the truncation notice naming the original length. -/
theorem c8_truncate_budget (v : Json) :
    ((stringify2 v).length ≤ 30000 ∧ truncate v = stringify2 v) ∨
    (30000 < (stringify2 v).length ∧
      truncate v = (stringify2 v).take 30000 ++ "\n\n[Truncated: result was " ++
        toString (stringify2 v).length ++ " chars, showing first 30000]") := by
  by_cases h : (stringify2 v).length ≤ 30000
  · exact Or.inl ⟨h, by simp [truncate, MAX_RESULT_CHARS, h]⟩
  · refine Or.inr ⟨by omega, ?_⟩
    have h2 : ¬ (stringify2 v).length ≤ MAX_RESULT_CHARS := by
      simpa [MAX_RESULT_CHARS] using h
    simp only [truncate, if_neg h2, MAX_RESULT_CHARS]
    have key : " chars, showing first " ++ (toString MAX_RESULT_CHARS ++ "]") =
        " chars, showing first 30000]" := by decide
    simp only [String.append_assoc, MAX_RESULT_CHARS] at key ⊢
    rw [key, if_neg h]

/-- Claim C10: for a turn whose request carries no project id (absent and
empty are both falsy), the history store is left unchanged, while the turn's
events are exactly those of the same turn under any project id and the final
event is still `done`. -/
theorem c10_no_project_no_write (cms : List (String × String)) (sp : String)
    (backend : Nat → ORResp) (toolFn : String → Json → String)
    (store : List PersistMsg) :
    (postChat "" cms sp backend toolFn store).store = store ∧
    (postChat "" cms sp backend toolFn store).events.getLast? = some SEvent.done ∧
    ∀ pid, (postChat pid cms sp backend toolFn store).events =
      (postChat "" cms sp backend toolFn store).events := by
  refine ⟨by simp [postChat], by simp [postChat, List.getLast?_concat], ?_⟩
  intro pid
  simp only [postChat]
  rw [(chatLoop_indep backend toolFn MAX_TOOL_ROUNDS 0 pid "" _ _ _ _).1]

/-- Claim C9: when the server stream ends without any `done` or `error`
event having been decoded, the post-loop cleanup still marks the streaming
assistant bubble as no longer streaming (`isStreaming := false`). -/
theorem c9_streaming_cleared (t content : String) (fb fn : Option String)
    (chunks : List String)
    (h : ∀ p ∈ collectPairs chunks, p.1 ≠ "done" ∧ p.1 ≠ "error") :
    ((clientRun t content fb fn chunks).msgs.all (fun m =>
      !(m.id == assistantIdOf t) || (m.isStreaming == Option.some false))) = true := by
  simp only [clientRun]
  rw [List.all_map, List.all_eq_true]
  intro x _
  by_cases hx : x.id == assistantIdOf t
  · simp [Function.comp, hx]
  · simp only [Function.comp, Bool.not_eq_true] at hx ⊢
    simp [hx]

/-- Claim C9 witness: the empty stream (no events at all) still ends with
the assistant bubble not streaming. -/
theorem c9_streaming_cleared_witness :
    ((clientRun "0" "q" Option.none Option.none []).msgs.all (fun m =>
      !(m.id == assistantIdOf "0") || (m.isStreaming == Option.some false))) = true :=
  c9_streaming_cleared "0" "q" Option.none Option.none []
    (by intro p hp; simp [collectPairs] at hp)

/-- Claim C5: tool dispatch always returns a string and never throws: an
unrecognized name yields the `Unknown tool` payload for every HTTP oracle,
and when every HTTP call fails (non-2xx status, or a thrown fetch error)
a known tool returns either the corresponding textual error payload or the
argument-validation payload (`extract_document`/`extract_sheet` without a
file source answer before any HTTP call is made). -/
theorem c5_executor_never_throws (name : String) (args : Json) (status : Nat)
    (body msg : String) (hs : ¬(200 ≤ status ∧ status ≤ 299)) :
    (name ∉ toolNames → ∀ http, executeTool http name args =
      stringifyCompact (Json.obj [("error", Json.str ("Unknown tool: " ++ name))])) ∧
    (name ∈ toolNames →
      executeTool (fun _ => HttpOutcome.resp status body) name args =
        stringifyCompact (Json.obj [("error",
          Json.str ("Extractor API " ++ toString status ++ ": " ++ body))]) ∨
      executeTool (fun _ => HttpOutcome.resp status body) name args =
        stringifyCompact (Json.obj [("error", Json.str "Provide file_base64 or file_url")])) ∧
    (name ∈ toolNames →
      executeTool (fun _ => HttpOutcome.netThrow msg) name args =
        stringifyCompact (Json.obj [("error", Json.str msg)]) ∨
      executeTool (fun _ => HttpOutcome.netThrow msg) name args =
        stringifyCompact (Json.obj [("error", Json.str "Provide file_base64 or file_url")])) := by
  refine ⟨?_, ?_, ?_⟩
  · intro hname http
    simp only [toolNames, List.mem_cons, List.not_mem_nil, or_false] at hname
    push_neg at hname
    obtain ⟨h1, h2, h3, h4, h5, h6, h7, h8, h9, h10, h11, h12, h13⟩ := hname
    simp [executeTool, executeToolBody, h1, h2, h3, h4, h5, h6, h7, h8, h9, h10, h11, h12, h13]
  · intro hname
    simp only [toolNames, List.mem_cons, List.not_mem_nil, or_false] at hname
    rcases hname with rfl|rfl|rfl|rfl|rfl|rfl|rfl|rfl|rfl|rfl|rfl|rfl|rfl
    all_goals
      first
      | (apply Or.inl
         simp [executeTool, executeToolBody, Except.map, api_resp_fail status body hs]
         done)
      | (by_cases h1 : jsTruthy (jsField args "file_url") = true
         · exact Or.inl (by
             simp [executeTool, executeToolBody, Except.map, api_resp_fail status body hs, h1])
         · by_cases h2 : jsTruthy (jsField args "file_base64") = true
           · exact Or.inl (by
               simp [executeTool, executeToolBody, Except.map, api_resp_fail status body hs,
                 h1, h2])
           · exact Or.inr (by
               simp [executeTool, executeToolBody, h1, h2]))
  · intro hname
    simp only [toolNames, List.mem_cons, List.not_mem_nil, or_false] at hname
    rcases hname with rfl|rfl|rfl|rfl|rfl|rfl|rfl|rfl|rfl|rfl|rfl|rfl|rfl
    all_goals
      first
      | (apply Or.inl
         simp [executeTool, executeToolBody, Except.map, api_netThrow msg]
         done)
      | (by_cases h1 : jsTruthy (jsField args "file_url") = true
         · exact Or.inl (by
             simp [executeTool, executeToolBody, Except.map, api_netThrow msg, h1])
         · by_cases h2 : jsTruthy (jsField args "file_base64") = true
           · exact Or.inl (by
               simp [executeTool, executeToolBody, Except.map, api_netThrow msg, h1, h2])
           · exact Or.inr (by
               simp [executeTool, executeToolBody, h1, h2]))

/-- Claim C5 witness: `list_configs` against a service answering 500
returns the textual `Extractor API 500` payload. -/
theorem c5_executor_never_throws_witness :
    executeTool (fun _ => HttpOutcome.resp 500 "boom") "list_configs" (Json.obj []) =
      stringifyCompact (Json.obj [("error",
        Json.str ("Extractor API " ++ toString 500 ++ ": " ++ "boom"))]) ∨
    executeTool (fun _ => HttpOutcome.resp 500 "boom") "list_configs" (Json.obj []) =
      stringifyCompact (Json.obj [("error", Json.str "Provide file_base64 or file_url")]) :=
  (c5_executor_never_throws "list_configs" (Json.obj []) 500 "boom" "x" (by omega)).2.1
    (by simp [toolNames])

/-!
Round-loop lemmas for the orchestrator claims.
-/

/-- The tool-processing phase always extends the persistence batch
(append-only). -/
theorem pt_extends (toolFn : String → Json → String) (pid : String) (tcs : List ToolCallRec) :
    ∀ (conv : List ORMsg) (persist : List PersistMsg),
      ∃ tail, (processToolCalls toolFn pid tcs conv persist).2.2.1 = persist ++ tail := by
  induction tcs with
  | nil => intro conv persist; exact ⟨[], by simp [processToolCalls]⟩
  | cons tc rest ih =>
    intro conv persist
    simp only [processToolCalls]
    cases hp : jsonParse (argStrOf tc) with
    | error e => exact ⟨[], by simp⟩
    | ok args =>
      obtain ⟨tail, htail⟩ := ih
        (conv ++ [⟨"tool", Option.some (toolFn tc.name args), Option.none, Option.some tc.id⟩])
        (persist ++ [⟨pid, "tool", toolFn tc.name args, Option.none, Option.some tc.id,
          Option.some tc.name⟩])
      exact ⟨⟨pid, "tool", toolFn tc.name args, Option.none, Option.some tc.id,
        Option.some tc.name⟩ :: tail, by simp [htail]⟩

/-- When every argument payload of the round decodes, the tool-processing
phase throws nothing and emits only `tool_call`/`status`/`tool_result`
events. -/
theorem pt_ok (toolFn : String → Json → String) (pid : String) (tcs : List ToolCallRec)
    (h : ∀ tc ∈ tcs, jsonParseOk (argStrOf tc) = true) :
    ∀ (conv : List ORMsg) (persist : List PersistMsg),
      (processToolCalls toolFn pid tcs conv persist).2.2.2 = Option.none ∧
      ∀ e ∈ (processToolCalls toolFn pid tcs conv persist).1, isToolish e = true := by
  induction tcs with
  | nil => intro conv persist; simp [processToolCalls]
  | cons tc rest ih =>
    intro conv persist
    have hok : jsonParseOk (argStrOf tc) = true := h tc (by simp)
    simp only [processToolCalls]
    cases hp : jsonParse (argStrOf tc) with
    | error e => rw [jsonParseOk, hp] at hok; simp at hok
    | ok args =>
      obtain ⟨h1, h2⟩ := ih (fun x hx => h x (by simp [hx]))
        (conv ++ [⟨"tool", Option.some (toolFn tc.name args), Option.none, Option.some tc.id⟩])
        (persist ++ [⟨pid, "tool", toolFn tc.name args, Option.none, Option.some tc.id,
          Option.some tc.name⟩])
      refine ⟨by simpa using h1, ?_⟩
      intro e he
      simp at he
      rcases he with he | he | he | he
      · simp [he, isToolish]
      · simp [he, isToolish]
      · simp [he, isToolish]
      · exact h2 e he

/-- When the first undecodable argument payload of the round is reached,
the tool-processing phase throws (the `JSON.parse` exception), having
emitted only tool-progress events for the earlier calls. -/
theorem pt_bad (toolFn : String → Json → String) (pid : String)
    (pre : List ToolCallRec) (bad : ToolCallRec) (rest : List ToolCallRec)
    (hpre : ∀ tc ∈ pre, jsonParseOk (argStrOf tc) = true)
    (hbad : jsonParseOk (argStrOf bad) = false) :
    ∀ (conv : List ORMsg) (persist : List PersistMsg),
      ∃ m, (processToolCalls toolFn pid (pre ++ bad :: rest) conv persist).2.2.2 =
          Option.some m ∧
        ∀ e ∈ (processToolCalls toolFn pid (pre ++ bad :: rest) conv persist).1,
          isToolish e = true := by
  induction pre with
  | nil =>
    intro conv persist
    simp only [List.nil_append, processToolCalls]
    cases hp : jsonParse (argStrOf bad) with
    | error e => exact ⟨e, by simp⟩
    | ok args => rw [jsonParseOk, hp] at hbad; simp at hbad
  | cons tc pre2 ih =>
    intro conv persist
    have hok : jsonParseOk (argStrOf tc) = true := hpre tc (by simp)
    simp only [List.cons_append, processToolCalls]
    cases hp : jsonParse (argStrOf tc) with
    | error e => rw [jsonParseOk, hp] at hok; simp at hok
    | ok args =>
      obtain ⟨m, h1, h2⟩ := ih (fun x hx => hpre x (by simp [hx]))
        (conv ++ [⟨"tool", Option.some (toolFn tc.name args), Option.none, Option.some tc.id⟩])
        (persist ++ [⟨pid, "tool", toolFn tc.name args, Option.none, Option.some tc.id,
          Option.some tc.name⟩])
      refine ⟨m, by simpa using h1, ?_⟩
      intro e he
      simp at he
      rcases he with he | he | he | he
      · simp [he, isToolish]
      · simp [he, isToolish]
      · simp [he, isToolish]
      · exact h2 e he

/-- The loop makes at most `fuel` completion calls. -/
theorem chatLoop_calls_le (backend : Nat → ORResp) (toolFn : String → Json → String)
    (pid : String) : ∀ (fuel n : Nat) (conv : List ORMsg) (persist : List PersistMsg),
    (chatLoop backend toolFn pid fuel n conv persist).2.2 ≤ fuel := by
  intro fuel
  induction fuel with
  | zero => intro n conv persist; simp [chatLoop]
  | succ f ih =>
    intro n conv persist
    simp only [chatLoop]
    cases backend n with
    | httpErr s b => simp
    | reject m => simp
    | noChoice => simp
    | success content tcs =>
      cases he : tcs.isEmpty with
      | true => simp [he]
      | false =>
        simp only [he, Bool.false_eq_true, if_false]
        cases hth : (processToolCalls toolFn pid tcs
            (conv ++ [⟨"assistant", content, Option.some tcs, Option.none⟩])
            (persist ++ [⟨pid, "assistant", content.getD "", Option.some tcs, Option.none,
              Option.none⟩])).2.2.2 with
        | some m => simp
        | none =>
          simp only []
          have := ih (n + 1)
            ((processToolCalls toolFn pid tcs
              (conv ++ [⟨"assistant", content, Option.some tcs, Option.none⟩])
              (persist ++ [⟨pid, "assistant", content.getD "", Option.some tcs, Option.none,
                Option.none⟩])).2.1)
            ((processToolCalls toolFn pid tcs
              (conv ++ [⟨"assistant", content, Option.some tcs, Option.none⟩])
              (persist ++ [⟨pid, "assistant", content.getD "", Option.some tcs, Option.none,
                Option.none⟩])).2.2.1)
          omega

/-- If rounds `n … n+k-1` are well-formed tool rounds and round `n+k`
returns no tool calls, the loop's events are tool-progress events followed
by exactly one `message` carrying that round's content. -/
theorem chatLoop_good_final (backend : Nat → ORResp) (toolFn : String → Json → String)
    (pid : String) (c : Option String) :
    ∀ (k fuel n : Nat) (conv : List ORMsg) (persist : List PersistMsg),
      k < fuel →
      (∀ j, j < k → goodToolRound backend (n + j)) →
      backend (n + k) = ORResp.success c [] →
      ∃ evs, (chatLoop backend toolFn pid fuel n conv persist).1 =
          evs ++ [SEvent.message (c.getD "")] ∧
        ∀ e ∈ evs, isToolish e = true := by
  intro k
  induction k with
  | zero =>
    intro fuel n conv persist hk hgood hb
    cases fuel with
    | zero => omega
    | succ f =>
      rw [Nat.add_zero] at hb
      refine ⟨[], ?_, by simp⟩
      simp [chatLoop, hb]
  | succ k ih =>
    intro fuel n conv persist hk hgood hb
    cases fuel with
    | zero => omega
    | succ f =>
      obtain ⟨c0, tcs, hb0, hne, hok⟩ := hgood 0 (by omega)
      rw [Nat.add_zero] at hb0
      have he : tcs.isEmpty = false := by
        cases tcs with
        | nil => simp at hne
        | cons a l => simp
      simp only [chatLoop, hb0, he, Bool.false_eq_true, if_false]
      obtain ⟨hthrown, htoolish⟩ := pt_ok toolFn pid tcs hok
        (conv ++ [⟨"assistant", c0, Option.some tcs, Option.none⟩])
        (persist ++ [⟨pid, "assistant", c0.getD "", Option.some tcs, Option.none,
          Option.none⟩])
      rw [hthrown]
      obtain ⟨evs, hevs, hevst⟩ := ih f (n + 1)
        ((processToolCalls toolFn pid tcs
          (conv ++ [⟨"assistant", c0, Option.some tcs, Option.none⟩])
          (persist ++ [⟨pid, "assistant", c0.getD "", Option.some tcs, Option.none,
            Option.none⟩])).2.1)
        ((processToolCalls toolFn pid tcs
          (conv ++ [⟨"assistant", c0, Option.some tcs, Option.none⟩])
          (persist ++ [⟨pid, "assistant", c0.getD "", Option.some tcs, Option.none,
            Option.none⟩])).2.2.1)
        (by omega)
        (fun j hj => by
          have := hgood (j + 1) (by omega)
          rwa [show n + (j + 1) = n + 1 + j by omega] at this)
        (by rwa [show n + 1 + k = n + (k + 1) by omega])
      refine ⟨(processToolCalls toolFn pid tcs
          (conv ++ [⟨"assistant", c0, Option.some tcs, Option.none⟩])
          (persist ++ [⟨pid, "assistant", c0.getD "", Option.some tcs, Option.none,
            Option.none⟩])).1 ++ evs, ?_, ?_⟩
      · simp [hevs]
      · intro e hee
        rcases List.mem_append.1 hee with hee | hee
        · exact htoolish e hee
        · exact hevst e hee

/-- If rounds `n … n+k-1` are well-formed tool rounds and round `n+k`
returns a tool call with an undecodable argument payload (after decodable
ones), the loop's events are tool-progress events followed by exactly one
`error`, and the loop stops after `k+1` completion calls. -/
theorem chatLoop_good_badargs (backend : Nat → ORResp) (toolFn : String → Json → String)
    (pid : String) (c : Option String) (pre : List ToolCallRec) (bad : ToolCallRec)
    (rest : List ToolCallRec) (hpre : ∀ tc ∈ pre, jsonParseOk (argStrOf tc) = true)
    (hbad : jsonParseOk (argStrOf bad) = false) :
    ∀ (k fuel n : Nat) (conv : List ORMsg) (persist : List PersistMsg),
      k < fuel →
      (∀ j, j < k → goodToolRound backend (n + j)) →
      backend (n + k) = ORResp.success c (pre ++ bad :: rest) →
      ∃ evs m, (chatLoop backend toolFn pid fuel n conv persist).1 =
          evs ++ [SEvent.error m] ∧
        (∀ e ∈ evs, isToolish e = true) ∧
        (chatLoop backend toolFn pid fuel n conv persist).2.2 = k + 1 := by
  intro k
  induction k with
  | zero =>
    intro fuel n conv persist hk hgood hb
    cases fuel with
    | zero => omega
    | succ f =>
      rw [Nat.add_zero] at hb
      have he : (pre ++ bad :: rest).isEmpty = false := by simp
      simp only [chatLoop, hb, he, Bool.false_eq_true, if_false]
      obtain ⟨m, hm, htoolish⟩ := pt_bad toolFn pid pre bad rest hpre hbad
        (conv ++ [⟨"assistant", c, Option.some (pre ++ bad :: rest), Option.none⟩])
        (persist ++ [⟨pid, "assistant", c.getD "", Option.some (pre ++ bad :: rest),
          Option.none, Option.none⟩])
      rw [hm]
      exact ⟨_, m, rfl, htoolish, rfl⟩
  | succ k ih =>
    intro fuel n conv persist hk hgood hb
    cases fuel with
    | zero => omega
    | succ f =>
      obtain ⟨c0, tcs, hb0, hne, hok⟩ := hgood 0 (by omega)
      rw [Nat.add_zero] at hb0
      have he : tcs.isEmpty = false := by
        cases tcs with
        | nil => simp at hne
        | cons a l => simp
      simp only [chatLoop, hb0, he, Bool.false_eq_true, if_false]
      obtain ⟨hthrown, htoolish⟩ := pt_ok toolFn pid tcs hok
        (conv ++ [⟨"assistant", c0, Option.some tcs, Option.none⟩])
        (persist ++ [⟨pid, "assistant", c0.getD "", Option.some tcs, Option.none,
          Option.none⟩])
      rw [hthrown]
      obtain ⟨evs, m, hevs, hevst, hcalls⟩ := ih f (n + 1)
        ((processToolCalls toolFn pid tcs
          (conv ++ [⟨"assistant", c0, Option.some tcs, Option.none⟩])
          (persist ++ [⟨pid, "assistant", c0.getD "", Option.some tcs, Option.none,
            Option.none⟩])).2.1)
        ((processToolCalls toolFn pid tcs
          (conv ++ [⟨"assistant", c0, Option.some tcs, Option.none⟩])
          (persist ++ [⟨pid, "assistant", c0.getD "", Option.some tcs, Option.none,
            Option.none⟩])).2.2.1)
        (by omega)
        (fun j hj => by
          have := hgood (j + 1) (by omega)
          rwa [show n + (j + 1) = n + 1 + j by omega] at this)
        (by rwa [show n + 1 + k = n + (k + 1) by omega])
      refine ⟨(processToolCalls toolFn pid tcs
          (conv ++ [⟨"assistant", c0, Option.some tcs, Option.none⟩])
          (persist ++ [⟨pid, "assistant", c0.getD "", Option.some tcs, Option.none,
            Option.none⟩])).1 ++ evs, m, ?_, ?_, ?_⟩
      · simp [hevs]
      · intro e hee
        rcases List.mem_append.1 hee with hee | hee
        · exact htoolish e hee
        · exact hevst e hee
      · simp [hcalls]

/-- Against a backend that always returns well-formed tool rounds the loop
consumes all its fuel, one completion call per unit, and strictly extends
the persistence batch whenever it ran at all. -/
theorem chatLoop_allgood (backend : Nat → ORResp) (toolFn : String → Json → String)
    (pid : String) (hall : ∀ j, goodToolRound backend j) :
    ∀ (fuel n : Nat) (conv : List ORMsg) (persist : List PersistMsg),
      (chatLoop backend toolFn pid fuel n conv persist).2.2 = fuel ∧
      ∃ tail, (chatLoop backend toolFn pid fuel n conv persist).2.1 = persist ++ tail ∧
        (fuel ≠ 0 → tail ≠ []) := by
  intro fuel
  induction fuel with
  | zero => intro n conv persist; exact ⟨rfl, [], by simp [chatLoop], by simp⟩
  | succ f ih =>
    intro n conv persist
    obtain ⟨c0, tcs, hb0, hne, hok⟩ := hall n
    have he : tcs.isEmpty = false := by
      cases tcs with
      | nil => simp at hne
      | cons a l => simp
    simp only [chatLoop, hb0, he, Bool.false_eq_true, if_false]
    obtain ⟨hthrown, _⟩ := pt_ok toolFn pid tcs hok
      (conv ++ [⟨"assistant", c0, Option.some tcs, Option.none⟩])
      (persist ++ [⟨pid, "assistant", c0.getD "", Option.some tcs, Option.none,
        Option.none⟩])
    rw [hthrown]
    obtain ⟨hcalls, tail2, htail2, _⟩ := ih (n + 1)
      ((processToolCalls toolFn pid tcs
        (conv ++ [⟨"assistant", c0, Option.some tcs, Option.none⟩])
        (persist ++ [⟨pid, "assistant", c0.getD "", Option.some tcs, Option.none,
          Option.none⟩])).2.1)
      ((processToolCalls toolFn pid tcs
        (conv ++ [⟨"assistant", c0, Option.some tcs, Option.none⟩])
        (persist ++ [⟨pid, "assistant", c0.getD "", Option.some tcs, Option.none,
          Option.none⟩])).2.2.1)
    obtain ⟨tail1, htail1⟩ := pt_extends toolFn pid tcs
      (conv ++ [⟨"assistant", c0, Option.some tcs, Option.none⟩])
      (persist ++ [⟨pid, "assistant", c0.getD "", Option.some tcs, Option.none,
        Option.none⟩])
    refine ⟨by simp [hcalls], ?_⟩
    refine ⟨⟨pid, "assistant", c0.getD "", Option.some tcs, Option.none, Option.none⟩ ::
      (tail1 ++ tail2), ?_, by simp⟩
    simp only []
    rw [htail2, htail1]
    simp

/-- Claim C3: every turn makes at most `MAX_TOOL_ROUNDS` (10) completion
calls, and against a backend that always returns well-formed tool-calling
responses the turn makes exactly `MAX_TOOL_ROUNDS` completion calls, still
emits `done` as its final event, and still persists the turn's batch when
the project id is truthy. -/
theorem c3_round_cap (pid sp : String) (cms : List (String × String))
    (backend : Nat → ORResp) (toolFn : String → Json → String)
    (store : List PersistMsg) :
    (postChat pid cms sp backend toolFn store).calls ≤ MAX_TOOL_ROUNDS ∧
    ((∀ j, goodToolRound backend j) →
      (postChat pid cms sp backend toolFn store).calls = MAX_TOOL_ROUNDS ∧
      (postChat pid cms sp backend toolFn store).events.getLast? = some SEvent.done ∧
      (pid ≠ "" → (postChat pid cms sp backend toolFn store).store =
        store ++ (postChat pid cms sp backend toolFn store).batch)) := by
  constructor
  · simpa [postChat] using chatLoop_calls_le backend toolFn pid MAX_TOOL_ROUNDS 0 _ _
  · intro hall
    obtain ⟨hcalls, tail, htail, hne⟩ :=
      chatLoop_allgood backend toolFn pid hall MAX_TOOL_ROUNDS 0
        ({ role := "system", content := Option.some sp, tool_calls := Option.none,
           tool_call_id := Option.none } ::
          (if pid ≠ "" then (store.filter (fun m => m.project_id == pid)).map persistToOR
            else []) ++ cms.map (fun m =>
              { role := m.1, content := Option.some m.2, tool_calls := Option.none,
                tool_call_id := Option.none }))
        (cms.map (userPersist pid))
    refine ⟨by simpa [postChat] using hcalls, by simp [postChat, List.getLast?_concat], ?_⟩
    intro hpid
    have hbatch : (postChat pid cms sp backend toolFn store).batch ≠ [] := by
      simp only [postChat]
      rw [htail]
      have : tail ≠ [] := hne (by simp [MAX_TOOL_ROUNDS])
      simp [this]
    simp only [postChat] at hbatch ⊢
    have h1 : (pid != "") = true := by simpa using hpid
    have h2 := List.isEmpty_eq_false.2 hbatch
    rw [h1, h2]
    simp

/-- Claim C3 witness: a backend that always requests `list_configs` with
arguments `"\x7b\x7d"` is stopped after exactly ten completion calls. -/
theorem c3_round_cap_witness : (postChat "p" [("user", "hi")] "sys"
      (fun _ => ORResp.success (Option.some "")
        [⟨"call1", "list_configs", "\x7b\x7d"⟩]) (fun _ _ => "ok") []).calls =
    MAX_TOOL_ROUNDS :=
  ((c3_round_cap "p" "sys" [("user", "hi")]
      (fun _ => ORResp.success (Option.some "") [⟨"call1", "list_configs", "\x7b\x7d"⟩])
      (fun _ _ => "ok") []).2
    (fun _ => ⟨Option.some "", [⟨"call1", "list_configs", "\x7b\x7d"⟩], rfl, by simp,
      by intro tc h; simp at h; subst h; rfl⟩)).1

/-- Claim C4: if the loop reaches a round whose response carries no tool
calls (the k earlier rounds being well-formed tool rounds), the turn's
event sequence is tool-progress events followed by exactly one `message`
and then exactly one `done` — so one `message`, one `done`, in that
order. -/
theorem c4_message_then_done (pid sp : String) (cms : List (String × String))
    (backend : Nat → ORResp) (toolFn : String → Json → String)
    (store : List PersistMsg) (k : Nat) (c : Option String)
    (hk : k < MAX_TOOL_ROUNDS)
    (hgood : ∀ j, j < k → goodToolRound backend j)
    (hfinal : backend k = ORResp.success c []) :
    ∃ evs, (postChat pid cms sp backend toolFn store).events =
        evs ++ [SEvent.message (c.getD ""), SEvent.done] ∧
      ∀ e ∈ evs, isToolish e = true := by
  obtain ⟨evs, hevs, ht⟩ := chatLoop_good_final backend toolFn pid c k MAX_TOOL_ROUNDS 0
    ({ role := "system", content := Option.some sp, tool_calls := Option.none,
       tool_call_id := Option.none } ::
      (if pid ≠ "" then (store.filter (fun m => m.project_id == pid)).map persistToOR
        else []) ++ cms.map (fun m =>
          { role := m.1, content := Option.some m.2, tool_calls := Option.none,
            tool_call_id := Option.none }))
    (cms.map (userPersist pid))
    hk (fun j hj => by simpa using hgood j hj) (by simpa using hfinal)
  refine ⟨evs, ?_, ht⟩
  simp only [postChat]
  rw [hevs]
  simp

/-- Claim C4 witness: one tool round followed by a plain-text round emits
tool-progress events, then `message "ans"`, then `done`. -/
theorem c4_message_then_done_witness : ∃ evs,
    (postChat "p" [("user", "hi")] "sys"
        (fun n => if n = 0 then
            ORResp.success (Option.some "") [⟨"call1", "t", "\x7b\x7d"⟩]
          else ORResp.success (Option.some "ans") [])
        (fun _ _ => "ok") []).events =
      evs ++ [SEvent.message ((Option.some "ans").getD ""), SEvent.done] ∧
    ∀ e ∈ evs, isToolish e = true :=
  c4_message_then_done "p" "sys" [("user", "hi")]
    (fun n => if n = 0 then ORResp.success (Option.some "") [⟨"call1", "t", "\x7b\x7d"⟩]
      else ORResp.success (Option.some "ans") [])
    (fun _ _ => "ok") [] 1 (Option.some "ans") (by decide)
    (fun j hj => by
      have hj0 : j = 0 := by omega
      subst hj0
      exact ⟨Option.some "", [⟨"call1", "t", "\x7b\x7d"⟩], rfl, by simp,
        by intro tc h; simp at h; subst h; rfl⟩)
    rfl

/-- Claim C6 (counterexample): a backend whose first response requests
`list_configs` with the undecodable argument payload `"not json"` produces
the event sequence `[error, done]` — no `tool_result` at all — and the
turn makes only one completion call, so the failure is not fed back into
the conversation and the turn does not continue. -/
theorem c6_bad_args_counterexample :
    (postChat "p" [("user", "go")] "sys"
        (fun _ => ORResp.success (Option.some "") [⟨"call1", "list_configs", "not json"⟩])
        (fun _ _ => "ok") []).events =
      [SEvent.error "Unexpected token in JSON", SEvent.done] ∧
    (postChat "p" [("user", "go")] "sys"
        (fun _ => ORResp.success (Option.some "") [⟨"call1", "list_configs", "not json"⟩])
        (fun _ _ => "ok") []).calls = 1 :=
  ⟨rfl, rfl⟩

/-- Claim C6 (amended): an undecodable tool-call argument payload makes
`JSON.parse` throw before the `tool_call` event for that call is emitted;
the turn's catch handler emits one terminal `error` event and the turn
ends with `done` after exactly `k+1` completion calls — the failure is not
represented as a tool-result and the round loop does not continue. -/
theorem c6_bad_args_amended (pid sp : String) (cms : List (String × String))
    (backend : Nat → ORResp) (toolFn : String → Json → String) (store : List PersistMsg)
    (k : Nat) (c : Option String) (pre : List ToolCallRec) (bad : ToolCallRec)
    (rest : List ToolCallRec)
    (hk : k < MAX_TOOL_ROUNDS)
    (hgood : ∀ j, j < k → goodToolRound backend j)
    (hround : backend k = ORResp.success c (pre ++ bad :: rest))
    (hpre : ∀ tc ∈ pre, jsonParseOk (argStrOf tc) = true)
    (hbad : jsonParseOk (argStrOf bad) = false) :
    ∃ evs m, (postChat pid cms sp backend toolFn store).events =
        evs ++ [SEvent.error m, SEvent.done] ∧
      (∀ e ∈ evs, isToolish e = true) ∧
      (postChat pid cms sp backend toolFn store).calls = k + 1 := by
  obtain ⟨evs, m, hevs, ht, hcalls⟩ := chatLoop_good_badargs backend toolFn pid c pre bad rest
    hpre hbad k MAX_TOOL_ROUNDS 0
    ({ role := "system", content := Option.some sp, tool_calls := Option.none,
       tool_call_id := Option.none } ::
      (if pid ≠ "" then (store.filter (fun m => m.project_id == pid)).map persistToOR
        else []) ++ cms.map (fun m =>
          { role := m.1, content := Option.some m.2, tool_calls := Option.none,
            tool_call_id := Option.none }))
    (cms.map (userPersist pid))
    hk (fun j hj => by simpa using hgood j hj) (by simpa using hround)
  refine ⟨evs, m, ?_, ht, by simpa [postChat] using hcalls⟩
  simp only [postChat]
  rw [hevs]
  simp

/-- Claim C6 (amended) witness: the `"not json"` arguments on round one end
the turn with `error` then `done` after a single completion call. -/
theorem c6_bad_args_amended_witness : ∃ evs m,
    (postChat "p" [("user", "go")] "sys"
        (fun _ => ORResp.success (Option.some "") [⟨"call1", "list_configs", "not json"⟩])
        (fun _ _ => "ok") []).events = evs ++ [SEvent.error m, SEvent.done] ∧
    (∀ e ∈ evs, isToolish e = true) ∧
    (postChat "p" [("user", "go")] "sys"
        (fun _ => ORResp.success (Option.some "") [⟨"call1", "list_configs", "not json"⟩])
        (fun _ _ => "ok") []).calls = 0 + 1 :=
  c6_bad_args_amended "p" "sys" [("user", "go")]
    (fun _ => ORResp.success (Option.some "") [⟨"call1", "list_configs", "not json"⟩])
    (fun _ _ => "ok") [] 0 (Option.some "") [] ⟨"call1", "list_configs", "not json"⟩ []
    (by decide) (fun j hj => absurd hj (by omega)) rfl (by simp) rfl

/-- Claim C7: when the first completion call answers with a non-2xx status,
the turn emits exactly `error "LLM API error: <status> <body>"` followed by
`done`, the batch holds exactly the new user message rows, and (for a
truthy project id and a non-empty batch) the store gains exactly those
rows. -/
theorem c7_first_round_http_error (pid sp : String) (cms : List (String × String))
    (backend : Nat → ORResp) (toolFn : String → Json → String)
    (store : List PersistMsg) (status : Nat) (body : String)
    (h : backend 0 = ORResp.httpErr status body) :
    (postChat pid cms sp backend toolFn store).events =
      [SEvent.error ("LLM API error: " ++ toString status ++ " " ++ body), SEvent.done] ∧
    (postChat pid cms sp backend toolFn store).batch = cms.map (userPersist pid) ∧
    (pid ≠ "" → cms ≠ [] →
      (postChat pid cms sp backend toolFn store).store =
        store ++ cms.map (userPersist pid)) := by
  have h10 : MAX_TOOL_ROUNDS = 9 + 1 := rfl
  refine ⟨?_, ?_, ?_⟩
  · simp [postChat, h10, chatLoop_httpErr backend toolFn pid 9 0 _ _ status body h]
  · simp [postChat, h10, chatLoop_httpErr backend toolFn pid 9 0 _ _ status body h]
  · intro hpid hcms
    simp [postChat, h10, chatLoop_httpErr backend toolFn pid 9 0 _ _ status body h,
      hpid, hcms]

/-- Claim C7 witness: an HTTP 500 on round one gives `[error, done]` and a
one-row batch. -/
theorem c7_first_round_http_error_witness :
    (postChat "p" [("user", "hi")] "sys" (fun _ => ORResp.httpErr 500 "boom")
        (fun _ _ => "ok") []).events =
      [SEvent.error ("LLM API error: " ++ toString 500 ++ " " ++ "boom"), SEvent.done] ∧
    (postChat "p" [("user", "hi")] "sys" (fun _ => ORResp.httpErr 500 "boom")
        (fun _ _ => "ok") []).batch = [("user", "hi")].map (userPersist "p") ∧
    ("p" ≠ "" → ([("user", "hi")] : List (String × String)) ≠ [] →
      (postChat "p" [("user", "hi")] "sys" (fun _ => ORResp.httpErr 500 "boom")
          (fun _ _ => "ok") []).store = [] ++ [("user", "hi")].map (userPersist "p")) :=
  c7_first_round_http_error "p" "sys" [("user", "hi")] (fun _ => ORResp.httpErr 500 "boom")
    (fun _ _ => "ok") [] 500 "boom" rfl

/-- `handleEvent` on a `tool_result` event updates exactly the assistant
bubble, attaching the result via the last-unresolved-match scan. -/
theorem handleEvent_toolResult (ev : Json) (aid : String) (pre post : List ChatMessageUI)
    (m : ChatMessageUI) (st : Option Json)
    (hid : (m.id == aid) = true)
    (hpre : ∀ x ∈ pre, (x.id == aid) = false)
    (hpost : ∀ x ∈ post, (x.id == aid) = false) :
    handleEvent "tool_result" ev aid { msgs := pre ++ m :: post, status := st } =
    { msgs := pre ++ withToolCalls m
        (attachResult (jsField ev "tool_name") (jsField ev "result")
          (m.toolCalls.getD [])) :: post,
      status := st } := by
  simp only [handleEvent, String.reduceEq, if_false, if_true, reduceIte]
  rw [List.map_append, List.map_cons]
  rw [mapIdOn pre _ (fun x hx => by rw [hpre x hx]; simp)]
  rw [mapIdOn post _ (fun x hx => by rw [hpost x hx]; simp)]
  rw [hid]
  rfl

/-- Claim C2 (counterexample): starting from an assistant bubble with two
unresolved tool calls of the same name, applying results `"r1"` then
`"r2"` does NOT leave the result list `[r1, r2]` (first result on the
first call) — the code's `findLastIndex` scan gives `[r2, r1]`. -/
theorem c2_tool_result_order_counterexample :
    ¬ (c2Final.msgs.map (fun m => (m.toolCalls.getD []).map (fun tc => tc.result)) =
      [[Option.some (Json.str "r1"), Option.some (Json.str "r2")]]) := by
  intro h
  rw [show c2Final.msgs.map (fun m => (m.toolCalls.getD []).map (fun tc => tc.result)) =
      [[Option.some (Json.str "r2"), Option.some (Json.str "r1")]] from rfl] at h
  simp at h

/-- Claim C2 (amended): for an assistant bubble holding two unresolved tool
calls of the same name, the first `tool_result` attaches to the *last*
(most recently added) unresolved call and the second to the remaining
first call, provided the first result is not falsy (a falsy result leaves
its call still considered unresolved). -/
theorem c2_tool_result_order_amended (aid n : String) (a1 a2 : Option Json) (r1 r2 : Json)
    (pre post : List ChatMessageUI) (m : ChatMessageUI) (st : Option Json)
    (hid : m.id = aid)
    (hpre : ∀ x ∈ pre, (x.id == aid) = false)
    (hpost : ∀ x ∈ post, (x.id == aid) = false)
    (htc : m.toolCalls =
      Option.some [⟨Option.some (Json.str n), a1, Option.none⟩,
        ⟨Option.some (Json.str n), a2, Option.none⟩])
    (hr1 : jsFalsy (Option.some r1) = false) :
    handleEvent "tool_result" (Json.obj [("tool_name", Json.str n), ("result", r2)]) aid
      (handleEvent "tool_result" (Json.obj [("tool_name", Json.str n), ("result", r1)]) aid
        { msgs := pre ++ m :: post, status := st }) =
    { msgs := pre ++ withToolCalls m [⟨Option.some (Json.str n), a1, Option.some r2⟩,
        ⟨Option.some (Json.str n), a2, Option.some r1⟩] :: post,
      status := st } := by
  have hbeq : (m.id == aid) = true := by simp [hid]
  have hatt1 : attachResult (Option.some (Json.str n)) (Option.some r1)
      [⟨Option.some (Json.str n), a1, Option.none⟩,
       ⟨Option.some (Json.str n), a2, Option.none⟩] =
      [⟨Option.some (Json.str n), a1, Option.none⟩,
       ⟨Option.some (Json.str n), a2, Option.some r1⟩] := by
    have hfn : jsFalsy (Option.none : Option Json) = true := rfl
    simp [attachResult, findLastIdx, jsStrictEqO, jsStrictEq, hfn]
  have hatt2 : attachResult (Option.some (Json.str n)) (Option.some r2)
      [⟨Option.some (Json.str n), a1, Option.none⟩,
       ⟨Option.some (Json.str n), a2, Option.some r1⟩] =
      [⟨Option.some (Json.str n), a1, Option.some r2⟩,
       ⟨Option.some (Json.str n), a2, Option.some r1⟩] := by
    have hfn : jsFalsy (Option.none : Option Json) = true := rfl
    simp [attachResult, findLastIdx, jsStrictEqO, jsStrictEq, hr1, hfn]
  have hfield1 : jsField (Json.obj [("tool_name", Json.str n), ("result", r1)]) "tool_name" =
      Option.some (Json.str n) := by simp [jsField]
  have hfield2 : jsField (Json.obj [("tool_name", Json.str n), ("result", r1)]) "result" =
      Option.some r1 := by simp [jsField]
  have hfield3 : jsField (Json.obj [("tool_name", Json.str n), ("result", r2)]) "tool_name" =
      Option.some (Json.str n) := by simp [jsField]
  have hfield4 : jsField (Json.obj [("tool_name", Json.str n), ("result", r2)]) "result" =
      Option.some r2 := by simp [jsField]
  rw [handleEvent_toolResult _ _ _ _ _ _ hbeq hpre hpost]
  rw [hfield1, hfield2, htc]
  simp only [Option.getD_some]
  rw [hatt1]
  rw [handleEvent_toolResult _ _ _ _ _ _ (by simpa [withToolCalls] using hbeq)
    hpre hpost]
  rw [hfield3, hfield4]
  simp only [withToolCalls, Option.getD_some]
  rw [hatt2]

/-- Claim C2 (amended) witness: the concrete two-call state receives
`"r1"` on the second call and `"r2"` on the first. -/
theorem c2_tool_result_order_amended_witness : handleEvent "tool_result"
      (Json.obj [("tool_name", Json.str "t"), ("result", Json.str "r2")]) "a"
      (handleEvent "tool_result"
        (Json.obj [("tool_name", Json.str "t"), ("result", Json.str "r1")]) "a"
        { msgs := [] ++ c2Msg :: [], status := Option.none }) =
    { msgs := [] ++ withToolCalls c2Msg
        [⟨Option.some (Json.str "t"), Option.some (Json.obj []), Option.some (Json.str "r2")⟩,
         ⟨Option.some (Json.str "t"), Option.some (Json.obj [("k", Json.num 1)]),
           Option.some (Json.str "r1")⟩] :: [],
      status := Option.none } :=
  c2_tool_result_order_amended "a" "t" (Option.some (Json.obj []))
    (Option.some (Json.obj [("k", Json.num 1)])) (Json.str "r1") (Json.str "r2")
    [] [] c2Msg Option.none rfl (by simp) (by simp) rfl rfl

/-- `String.prototype.split` behaviour: a newline-free prefix attaches to
the first part of the split of the remainder. -/
theorem splitNl_append_nonl (xs : List Char) :
    ∀ (ys : List Char), '\n' ∉ xs → splitNl (xs ++ '\n' :: ys) = xs :: splitNl ys := by
  induction xs with
  | nil => intro ys _; simp [splitNl]
  | cons c rest ih =>
    intro ys h
    have hc : ¬ c = '\n' := by intro hh; exact h (by simp [hh])
    have hr : '\n' ∉ rest := fun hh => h (by simp [hh])
    simp only [List.cons_append, splitNl, hc, if_false, List.append_eq, ih ys hr]

/-- Splitting at a leading newline yields an empty first line. -/
theorem splitNl_nl (ys : List Char) : splitNl ('\n' :: ys) = [] :: splitNl ys := by
  simp [splitNl]

/-- A serialized run of well-formed frames splits into exactly the frames'
lines followed by one trailing empty part. -/
theorem splitNl_renderFrames (fs : List Frame) (h : ∀ f ∈ fs, wellFormedFrame f) :
    splitNl ((renderFrames fs).data) = frameLines fs ++ [[]] := by
  induction fs with
  | nil => simp [renderFrames, splitNl, frameLines]
  | cons f rest ih =>
    obtain ⟨he, hp⟩ := h f (by simp)
    have hwe : '\n' ∉ ("event: ".data ++ f.etype.data) := by
      intro hh
      rcases List.mem_append.1 hh with hh | hh
      · simp at hh
      · exact he hh
    have hwd : '\n' ∉ ("data: ".data ++ f.payload.data) := by
      intro hh
      rcases List.mem_append.1 hh with hh | hh
      · simp at hh
      · exact hp hh
    have hdata : (renderFrames (f :: rest)).data =
        ("event: ".data ++ f.etype.data) ++ '\n' ::
          (("data: ".data ++ f.payload.data) ++ '\n' :: '\n' :: (renderFrames rest).data) := by
      simp [renderFrames, renderFrame, String.data_append]
    rw [hdata, splitNl_append_nonl _ _ hwe, splitNl_append_nonl _ _ hwd, splitNl_nl,
      ih (fun x hx => h x (by simp [hx]))]
    simp [frameLines]

/-- Folding the read loop's line handler over the lines of a run of frames
applies the frames' events in order, whatever event type was latched
before. -/
theorem foldl_frameLines (aid : String) (fs : List Frame) :
    ∀ (e : String) (st : ClientState),
      ((frameLines fs).foldl (processLine aid) (e, st)).2 =
        fs.foldl (applyFrame aid) st := by
  induction fs with
  | nil => intro e st; simp [frameLines]
  | cons f rest ih =>
    intro e st
    have hev : "event: ".data.isPrefixOf ("event: ".data ++ f.etype.data) = true := by
      rw [List.isPrefixOf_iff_prefix]
      exact List.prefix_append _ _
    have hdrop : ("event: ".data ++ f.etype.data).drop 7 = f.etype.data := by
      have : (7 : Nat) = "event: ".data.length := by decide
      rw [this, List.drop_left]
    have hne : "event: ".data.isPrefixOf ("data: ".data ++ f.payload.data) = false := by
      simp [List.isPrefixOf]
    have hda : "data: ".data.isPrefixOf ("data: ".data ++ f.payload.data) = true := by
      rw [List.isPrefixOf_iff_prefix]
      exact List.prefix_append _ _
    have hdrop2 : ("data: ".data ++ f.payload.data).drop 6 = f.payload.data := by
      have : (6 : Nat) = "data: ".data.length := by decide
      rw [this, List.drop_left]
    have hn1 : "event: ".data.isPrefixOf ([] : List Char) = false := by
      simp [List.isPrefixOf]
    have hn2 : "data: ".data.isPrefixOf ([] : List Char) = false := by
      simp [List.isPrefixOf]
    simp only [frameLines, List.foldl_cons]
    rw [show processLine aid (e, st) ("event: ".data ++ f.etype.data) =
        (String.mk f.etype.data, st) by simp [processLine, hev, hdrop]]
    rw [show processLine aid (String.mk f.etype.data, st)
          ("data: ".data ++ f.payload.data) =
        (String.mk f.etype.data,
          decodeAndHandle (String.mk f.etype.data) (String.mk f.payload.data) aid st) by
      simp [processLine, hne, hda, hdrop2]]
    rw [show processLine aid (String.mk f.etype.data,
          decodeAndHandle (String.mk f.etype.data) (String.mk f.payload.data) aid st) [] =
        (String.mk f.etype.data,
          decodeAndHandle (String.mk f.etype.data) (String.mk f.payload.data) aid st) by
      simp [processLine, hn1, hn2]]
    rw [ih]
    rfl

/-- A chunk that is a whole run of frames, arriving on an empty carry-over
buffer, applies exactly those frames and leaves the buffer empty. -/
theorem processChunk_frames (aid : String) (fs : List Frame) (st : ClientState)
    (h : ∀ f ∈ fs, wellFormedFrame f) :
    processChunk aid (st, []) (renderFrames fs) = (fs.foldl (applyFrame aid) st, []) := by
  simp only [processChunk, List.nil_append, splitNl_renderFrames fs h,
    List.dropLast_concat, List.getLast?_concat, Option.getD_some]
  rw [foldl_frameLines]

/-- The read loop over frame-aligned chunks applies the concatenated frame
run, chunk by chunk. -/
theorem clientLoop_frames (aid : String) :
    ∀ (blocks : List (List Frame)) (st : ClientState),
      (∀ f ∈ blocks.flatten, wellFormedFrame f) →
      (blocks.map renderFrames).foldl (processChunk aid) (st, []) =
        (blocks.flatten.foldl (applyFrame aid) st, []) := by
  intro blocks
  induction blocks with
  | nil => intro st _; simp
  | cons b rest ih =>
    intro st h
    simp only [List.map_cons, List.foldl_cons]
    rw [processChunk_frames aid b st (fun f hf => h f (by simp [hf]))]
    rw [ih _ (fun f hf => h f (by simp [hf]))]
    simp [List.foldl_append]

/-- Claim C1 (amended): the read loop produces the same final UI state as
one-chunk processing for every chunking whose boundaries fall at frame
boundaries — equivalently, whenever no chunk boundary separates a frame's
`event:` line from its `data:` line.  As stated (arbitrary chunk
boundaries, including between an `event:` line and its `data:` line) the
claim is false — see the counterexample — because the loop resets its
event-type latch to `""` at the start of every chunk. -/
theorem c1_chunk_invariance_amended (t content : String) (fb fn : Option String)
    (blocks : List (List Frame))
    (h : ∀ f ∈ blocks.flatten, wellFormedFrame f) :
    clientRun t content fb fn (blocks.map renderFrames) =
      clientRun t content fb fn [renderFrames blocks.flatten] := by
  simp only [clientRun]
  rw [clientLoop_frames (assistantIdOf t) blocks _ h]
  rw [show ([renderFrames blocks.flatten].foldl (processChunk (assistantIdOf t))
      ({ msgs := [initialUserMsg t content fb fn, initialAssistantMsg t],
         status := Option.none }, [])) =
    (blocks.flatten.foldl (applyFrame (assistantIdOf t))
      { msgs := [initialUserMsg t content fb fn, initialAssistantMsg t],
        status := Option.none }, []) by
    simp only [List.foldl_cons, List.foldl_nil]
    exact processChunk_frames _ _ _ h]

/-- Claim C1 (counterexample): the stream
`event: message\ndata: (content hi)\n\n` processed as two chunks split
between the `event:` line and the `data:` line leaves the assistant
content empty, while the same bytes in one chunk set it to `"hi"`. -/
theorem c1_chunk_invariance_counterexample :
    clientRun "0" "q" Option.none Option.none
        ["event: message\n", "data: \x7b\"content\":\"hi\"\x7d\n\n"] ≠
      clientRun "0" "q" Option.none Option.none
        ["event: message\ndata: \x7b\"content\":\"hi\"\x7d\n\n"] := by
  intro h
  have h1 : (clientRun "0" "q" Option.none Option.none
      ["event: message\n", "data: \x7b\"content\":\"hi\"\x7d\n\n"]).msgs.map
        (fun m => m.content) =
      [Option.some (Json.str "q"), Option.some (Json.str "")] := rfl
  have h2 : (clientRun "0" "q" Option.none Option.none
      ["event: message\ndata: \x7b\"content\":\"hi\"\x7d\n\n"]).msgs.map
        (fun m => m.content) =
      [Option.some (Json.str "q"), Option.some (Json.str "hi")] := rfl
  rw [h] at h1
  have := h1.symm.trans h2
  simp at this

/-- Claim C1 (amended) witness: two frames delivered as two frame-aligned
chunks reconstruct the same state as the whole stream in one chunk. -/
theorem c1_chunk_invariance_amended_witness : clientRun "0" "q" Option.none Option.none
      ((([[⟨"message", "\x7b\"content\":\"hi\"\x7d"⟩],
          [⟨"done", "\x7b\x7d"⟩]] : List (List Frame)).map renderFrames)) =
    clientRun "0" "q" Option.none Option.none
      [renderFrames ([[⟨"message", "\x7b\"content\":\"hi\"\x7d"⟩],
        [⟨"done", "\x7b\x7d"⟩]] : List (List Frame)).flatten] :=
  c1_chunk_invariance_amended "0" "q" Option.none Option.none _ (by
    intro f hf
    simp at hf
    rcases hf with rfl | rfl <;> exact ⟨by decide, by decide⟩)
